import Mathlib

/-!
Verification development for the dynamic query-building and permission-filtering
engine of a metadata-driven web framework (`frappe/database/query.py`).

The Python source is shallowly embedded: Python values that can appear in
filter / field specifications are modelled by the inductive `FObj`; pypika
terms and criteria by `Term` and `Criterion`; the mutable `Engine` state by
explicit state passing; exceptions by `Except Err`.  External collaborators
(metadata provider, permission oracle, hooks) are modelled as an explicit
environment `Env`, matching the specification's component boundaries.

Pypika objects passed pre-built into the engine (`Criterion` / `Term`
instances appearing inside `filters` or `fields` arguments) are outside the
value domain `FObj`; the corresponding `isinstance` short-circuit branches of
the source are therefore not reachable in this embedding and are noted in
comments where they occur.
-/

namespace FrappeQuery

/-- Database backends supported by the engine. -/
inductive Backend where
  | mariadb
  | postgres
  | sqlite
deriving DecidableEq, Repr

/-- Exception taxonomy.  `frappe.throw` raises `ValidationError` by default;
`PermissionError`, `TypeError` and `ValueError` are raised where the source
passes them explicitly; `AttributeError` / `KeyError` model Python's own
runtime errors; `DoesNotExistError` models `frappe.get_meta` on an unknown
doctype. -/
inductive Err where
  | validationError
  | permissionError
  | typeError
  | valueError
  | attributeError
  | keyError
  | doesNotExist
deriving DecidableEq, Repr

/-- Python objects that can appear in filter values, field lists and SQL
function dictionaries: `None`, booleans, ints, floats, strings, lists,
tuples, dicts (ordered key/value pairs, as in Python 3.7+), and
date / datetime instances (a date is a day number; a datetime is a day
number plus a time-of-day in microseconds). -/
inductive FObj where
  | none
  | bool (b : Bool)
  | int (n : Int)
  | float (q : Rat)
  | str (s : String)
  | list (xs : List FObj)
  | tuple (xs : List FObj)
  | dict (xs : List (String × FObj))
  | date (day : Int)
  | datetime (day : Int) (usec : Int)

/-- Python truthiness (`bool(x)`). -/
def FObj.truthy : FObj → Bool
  | .none => false
  | .bool b => b
  | .int n => n != 0
  | .float q => q != 0
  | .str s => !s.isEmpty
  | .list xs => !xs.isEmpty
  | .tuple xs => !xs.isEmpty
  | .dict xs => !xs.isEmpty
  | .date _ => true
  | .datetime _ _ => true

/-- `isinstance(x, int)` — in Python `bool` is a subclass of `int`. -/
def FObj.isInt : FObj → Bool
  | .int _ => true
  | .bool _ => true
  | _ => false

/-- Integer value of an `int`-instance object (`True == 1`, `False == 0`). -/
def FObj.intVal : FObj → Int
  | .int n => n
  | .bool b => if b then 1 else 0
  | _ => 0

/-- `isinstance(x, FilterValue)` where `FilterValue = str | int | bool`
(`frappe/database/utils.py`). -/
def FObj.isFilterValue : FObj → Bool
  | .str _ => true
  | .int _ => true
  | .bool _ => true
  | _ => false

/-- `isinstance(x, list | tuple)`. -/
def FObj.isListOrTuple : FObj → Bool
  | .list _ => true
  | .tuple _ => true
  | _ => false

/-- `isinstance(x, list | tuple | set)` — Python `set` literals cannot be
expressed in this embedding (their iteration order is unspecified), so the
check coincides with `isListOrTuple`. -/
def FObj.isListTupleSet : FObj → Bool
  | .list _ => true
  | .tuple _ => true
  | _ => false

/-- Elements of a `list`/`tuple` object. -/
def FObj.elems : FObj → List FObj
  | .list xs => xs
  | .tuple xs => xs
  | _ => []

/-- `isinstance(x, str)`. -/
def FObj.isStr : FObj → Bool
  | .str _ => true
  | _ => false

/-- `isinstance(x, datetime.datetime)`. -/
def FObj.isDatetime : FObj → Bool
  | .datetime _ _ => true
  | _ => false

/-- Numeric value of an `int`/`bool`/`float` object for Python's cross-type
numeric comparison. -/
def FObj.numVal? : FObj → Option Rat
  | .int n => some n
  | .bool b => some (if b then 1 else 0)
  | .float q => some q
  | _ => Option.none

/-- Lookup in a Python dict (keys are unique; first match). -/
def dictLookup (k : String) : List (String × FObj) → Option FObj
  | [] => Option.none
  | (k2, v) :: rest => if k2 == k then some v else dictLookup k rest

theorem dictLookup_sizeOf {k : String} :
    ∀ {ys : List (String × FObj)} {w : FObj}, dictLookup k ys = some w →
      sizeOf w < sizeOf ys := by
  intro ys
  induction ys with
  | nil => intro w h; simp [dictLookup] at h
  | cons p rest ih =>
      intro w h
      unfold dictLookup at h
      by_cases hk : p.1 == k
      · obtain ⟨k2, v⟩ := p
        simp [hk] at h
        subst h
        simp
        omega
      · obtain ⟨k2, v⟩ := p
        simp only [hk, if_neg] at h
        have := ih h
        simp
        omega

mutual

/-- Python `==` over embedded objects: numeric types compare by value
(`0 == False`, `1 == 1.0`), strings by content, lists/tuples pointwise
within the same type, dicts by key set with equal values (order
insensitive), dates/datetimes within their own type. -/
def FObj.pyEq : FObj → FObj → Bool
  | .none, .none => true
  | .str a, .str b => a == b
  | .list xs, .list ys => pyEqList xs ys
  | .tuple xs, .tuple ys => pyEqList xs ys
  | .dict xs, .dict ys => xs.length == ys.length && pyEqDict xs ys
  | .date a, .date b => a == b
  | .datetime a b, .datetime c d => a == c && b == d
  | a, b =>
    match a.numVal?, b.numVal? with
    | some x, some y => x == y
    | _, _ => false
termination_by a b => sizeOf a + sizeOf b

def pyEqList : List FObj → List FObj → Bool
  | [], [] => true
  | x :: xs, y :: ys => x.pyEq y && pyEqList xs ys
  | _, _ => false
termination_by xs ys => sizeOf xs + sizeOf ys

def pyEqDict : List (String × FObj) → List (String × FObj) → Bool
  | [], _ => true
  | (k, v) :: xs, ys =>
    match h : dictLookup k ys with
    | some w => v.pyEq w && pyEqDict xs ys
    | Option.none => false
termination_by xs ys => sizeOf xs + sizeOf ys
decreasing_by
  all_goals simp_wf
  all_goals try (have hlk := dictLookup_sizeOf h; omega)
  all_goals omega

end

/-- `datetime.date()` truncation; identity on non-datetimes. -/
def FObj.toDate : FObj → FObj
  | .datetime d _ => .date d
  | o => o

/-! ### Python string helpers

The source validates strings with `re` patterns compiled with `re.ASCII`;
the helpers below model those character classes and the relevant `str`
methods over ASCII data. -/

/-- Python whitespace (`\s` with `re.ASCII`, and `str.strip()`). -/
def pyIsSpace (c : Char) : Bool :=
  c == ' ' || c == '\t' || c == '\n' || c == '\x0d' || c == '\x0b' || c == '\x0c'

/-- `\w` with `re.ASCII`: letters, digits, underscore. -/
def isWordChar (c : Char) : Bool :=
  c.isAlpha || c.isDigit || c == '_'

/-- `str.strip()`. -/
def pyStrip (s : String) : String :=
  String.mk ((s.data.dropWhile pyIsSpace).reverse.dropWhile pyIsSpace).reverse

/-- `str.isdigit()` (ASCII digits). -/
def pyIsDigit (s : String) : Bool :=
  !s.isEmpty && s.data.all Char.isDigit

/-- `str.isupper()`: at least one cased character, and every cased character
is uppercase. -/
def pyIsUpper (s : String) : Bool :=
  s.data.any Char.isAlpha && s.data.all (fun c => !c.isAlpha || c.isUpper)

/-- `str.lower()` / `str.casefold()` (equivalent over ASCII data), defined
character-wise so that it evaluates by kernel reduction. -/
def pyToLower (s : String) : String :=
  String.mk (s.data.map Char.toLower)

/-- `c in s` for a single character. -/
def strContains (s : String) (c : Char) : Bool :=
  s.data.contains c

/-- `s.startswith(pre)`. -/
def strStartsWith (s pre : String) : Bool :=
  pre.data.isPrefixOf s.data

/-- `s.endswith(suf)`. -/
def strEndsWith (s suf : String) : Bool :=
  suf.data.reverse.isPrefixOf s.data.reverse

/-- Split a character list at every character satisfying `p`. -/
def splitChars (p : Char → Bool) : List Char → List (List Char)
  | [] => [[]]
  | c :: rest =>
    let r := splitChars p rest
    if p c then [] :: r
    else
      match r with
      | h :: t => (c :: h) :: t
      | [] => [[c]]

/-- `s.split(sep)` for a one-character separator (`str.split` with an
explicit separator keeps empty pieces). -/
def strSplitOnChar (c : Char) (s : String) : List String :=
  (splitChars (fun x => x == c) s.data).map String.mk

/-- `sub in s` (substring containment). -/
def containsSubstr (s sub : String) : Bool :=
  go s.data
where
  go : List Char → Bool
    | [] => sub.data.isEmpty
    | c :: rest => sub.data.isPrefixOf (c :: rest) || go rest

/-- Full anchored match `^C*$` for a character class `C`, including the
Python quirk that `$` also matches just before a final newline. -/
def reFullMatchStar (p : Char → Bool) (s : String) : Bool :=
  s.data.all p ||
    (match s.data.getLast? with
     | some c => c == '\n' && s.data.dropLast.all p
     | Option.none => false)

/-- Full anchored match `^C+$` for a character class `C` (same `$` quirk). -/
def reFullMatchPlus (p : Char → Bool) (s : String) : Bool :=
  reFullMatchStar p s && !(s.isEmpty || s == "\n")

/-! ### pypika model

Physical table names: `frappe.qb.DocType(name)` renders `tab<name>` unless
the name already starts with `__` (system tables such as `__Auth`).  The
query-builder module defining this is not part of the sources under
verification; the rule is the documented frappe table-naming convention
("table names are the entity name prefixed with a fixed literal marker",
spec section 6). -/
def docTypeTable (name : String) : String :=
  if strStartsWith name "__" then name else "tab" ++ name

/-- A pypika term: column references, `*`, wrapped constants, plain ints
(from digit-string coercion), function calls, arithmetic expressions,
alias-annotated terms, and bare (table-less) field references. -/
inductive Term where
  | field (table : String) (name : String)
  | bare (name : String)
  | star
  | tableStar (table : String)
  | literal (v : FObj)
  | num (n : Int)
  | func (name : String) (args : List Term)
  | arith (op : String) (left right : Term)
  | aliased (t : Term) (a : String)

/-- Binary comparison operators a criterion can carry.  The operator
dictionary `OPERATOR_MAP` itself lives in `frappe/database/operator_map.py`,
which is not among the sources under verification; its key set is modelled
below (`OPERATOR_MAP`) from the specification's operator list. -/
inductive OpKind where
  | eq | ne | lt | gt | le | ge
  | inOp | notIn | like | notLike | ilike
  | isOp | between | timespan
deriving DecidableEq, Repr

/-- A pypika criterion (boolean condition tree).  `raw` models
`RawCriterion` wrapping a raw SQL fragment. -/
inductive Criterion where
  | empty
  | binop (op : OpKind) (lhs rhs : Term)
  | isNull (t : Term)
  | and (a b : Criterion)
  | or (a b : Criterion)
  | raw (s : String)

/-- `pypika.Criterion.all`: left-fold conjunction of a list of criteria. -/
def Criterion.all : List Criterion → Criterion
  | [] => .empty
  | c :: cs => cs.foldl Criterion.and c

inductive OrderDir where
  | asc | desc
deriving DecidableEq, Repr

inductive JoinKind where
  | left | inner
deriving DecidableEq, Repr

structure Join where
  kind : JoinKind
  table : String
  onCond : Criterion

inductive QueryKind where
  | select | update | intoQ | delete
deriving DecidableEq, Repr

/-- Group-by / order-by entries can be parsed fields or raw numeric
positional references (digit strings passed through unresolved). -/
inductive ClauseField where
  | term (t : Term)
  | posRef (s : String)

/-- The accumulating query plan (`pypika.QueryBuilder` as used by the
engine): base table, selected terms, joins, conjunctive where list,
group-by, order-by, limit/offset, distinct and locking flags. -/
structure Query where
  kind : QueryKind := .select
  baseTable : String
  selects : List Term := []
  joins : List Join := []
  wheres : List Criterion := []
  groupbys : List ClauseField := []
  orderbys : List (ClauseField × OrderDir) := []
  qlimit : Option Int := Option.none
  qoffset : Option Int := Option.none
  isDistinct : Bool := false
  forUpdate : Bool := false

/-- `QueryBuilder.where`: AND-appends a criterion. -/
def Query.where_ (q : Query) (c : Criterion) : Query :=
  { q with wheres := q.wheres ++ [c] }

/-- `QueryBuilder.is_joined(table)`: whether some join already targets the
given table. -/
def Query.isJoined (q : Query) (table : String) : Bool :=
  q.joins.any (fun j => j.table == table)

/-- `QueryBuilder.left_join(t).on(c)`. -/
def Query.leftJoin (q : Query) (table : String) (c : Criterion) : Query :=
  { q with joins := q.joins ++ [⟨.left, table, c⟩] }

/-- `QueryBuilder.inner_join(t).on(c)`. -/
def Query.innerJoin (q : Query) (table : String) (c : Criterion) : Query :=
  { q with joins := q.joins ++ [⟨.inner, table, c⟩] }

def Query.select (q : Query) (t : Term) : Query :=
  { q with selects := q.selects ++ [t] }

/-! ### Module-level patterns of `frappe/database/query.py`

Each regular expression of the source is modelled by an executable matcher
over the same ASCII character classes.  Structural parsers below do not
reproduce the Python quirk of `$` matching before a final newline (it is
modelled only in the `reFullMatch*` helpers, where it is observable for the
plain character-class patterns). -/

/-- Character class `[\w -]` of `TABLE_NAME_PATTERN`. -/
def tableNameChar (c : Char) : Bool :=
  isWordChar c || c == ' ' || c == '-'

/-- `TABLE_NAME_PATTERN = ^[\w -]*$` (re.ASCII). -/
def tableNamePatternMatch (s : String) : Bool :=
  reFullMatchStar tableNameChar s

/-- `SIMPLE_FIELD_PATTERN = ^\w+$` (re.ASCII). -/
def simpleFieldPatternMatch (s : String) : Bool :=
  reFullMatchPlus isWordChar s

/-- Anchored `^[first][rest]*$` match with the trailing-newline `$` quirk. -/
def reFullMatchFirstRest (p1 p : Char → Bool) (s : String) : Bool :=
  let core : List Char → Bool := fun cs =>
    match cs with
    | [] => false
    | c :: rest => p1 c && rest.all p
  core s.data ||
    (match s.data.getLast? with
     | some c => c == '\n' && core s.data.dropLast
     | Option.none => false)

/-- `IDENTIFIER_PATTERN = ^[a-zA-Z_][a-zA-Z0-9_]*$`. -/
def identifierPatternMatch (s : String) : Bool :=
  reFullMatchFirstRest (fun c => c.isAlpha || c == '_') isWordChar s

/-- `FUNCTION_CALL_PATTERN = ^\s*[a-zA-Z_][a-zA-Z0-9_]*\s*\(` (prefix
match: an identifier followed by an opening parenthesis). -/
def functionCallPatternMatch (s : String) : Bool :=
  match s.data.dropWhile pyIsSpace with
  | c :: rest =>
    (c.isAlpha || c == '_') &&
      (match (rest.dropWhile isWordChar).dropWhile pyIsSpace with
       | '(' :: _ => true
       | _ => false)
  | [] => false

/-- Split a character list at the first occurrence of `c`
(`str.split(c, 1)` when it succeeds). -/
def splitAtFirst (c : Char) : List Char → Option (List Char × List Char)
  | [] => Option.none
  | x :: rest =>
    if x == c then some ([], rest)
    else
      match splitAtFirst c rest with
      | some (a, b) => some (x :: a, b)
      | Option.none => Option.none

/-- Match a backreferenced optionally-backtick-quoted name
`` (`?)(C+)\1 `` for character class `p`; returns the inner name. -/
def matchOptBacktickName (p : Char → Bool) (cs : List Char) : Option String :=
  match cs with
  | '`' :: rest =>
    match rest.getLast? with
    | some '`' =>
      let inner := rest.dropLast
      if !inner.isEmpty && inner.all p then some (String.mk inner) else Option.none
    | _ => Option.none
  | _ =>
    if !cs.isEmpty && cs.all p then some (String.mk cs) else Option.none

/-- Match `` ([`"]?)(\w+)\2 `` — a field name optionally quoted by a
backtick or double quote (backreferenced). -/
def matchOptQuoteName (cs : List Char) : Option String :=
  match cs with
  | q :: rest =>
    if q == '`' || q == '"' then
      match rest.getLast? with
      | some q2 =>
        if q2 == q then
          let inner := rest.dropLast
          if !inner.isEmpty && inner.all isWordChar then some (String.mk inner) else Option.none
        else Option.none
      | Option.none => Option.none
    else if (q :: rest).all isWordChar then some (String.mk (q :: rest)) else Option.none
  | [] => Option.none

/-- The table group `` (`?)(tab[\w\s-]+)\1 `` of `FIELD_PARSE_REGEX`:
returns the table name including its `tab` prefix. -/
def tabTableNameMatch (cs : List Char) : Option String :=
  match matchOptBacktickName (fun c => isWordChar c || pyIsSpace c || c == '-') cs with
  | some name =>
    if strStartsWith name "tab" && name.length > 3 then some name else Option.none
  | Option.none => Option.none

/-- `FIELD_PARSE_REGEX = ^(?:(`?)(tab[\w\s-]+)\1\.)?(`?)(\w+)\3$`:
returns (optional table name with `tab` prefix, field name). -/
def fieldParseRegexMatch (s : String) : Option (Option String × String) :=
  match splitAtFirst '.' s.data with
  | some (t, f) =>
    match tabTableNameMatch t, matchOptBacktickName isWordChar f with
    | some tn, some fn => some (some tn, fn)
    | _, _ => Option.none
  | Option.none =>
    match matchOptBacktickName isWordChar s.data with
    | some fn => some (Option.none, fn)
    | Option.none => Option.none

/-- `BACKTICK_FIELD_PARSE_REGEX = ^`tab([\w\s-]+)`\.(`?)(\w+)\2$`:
returns (table name without the `tab` prefix, field name). -/
def backtickFieldParseMatch (s : String) : Option (String × String) :=
  match s.data with
  | '`' :: 't' :: 'a' :: 'b' :: rest =>
    match splitAtFirst '`' rest with
    | some (tname, afterTick) =>
      if !tname.isEmpty && tname.all (fun c => isWordChar c || pyIsSpace c || c == '-') then
        match afterTick with
        | '.' :: fpart =>
          (matchOptBacktickName isWordChar fpart).map (fun fn => (String.mk tname, fn))
        | _ => Option.none
      else Option.none
    | Option.none => Option.none
  | _ => Option.none

/-- `CHILD_TABLE_FIELD_PATTERN = ^[`"]?tab([\w\s]+)[`"]?\.([`"]?)(\w+)\2$`:
returns (child doctype name without `tab` prefix, field name). -/
def childTableFieldPatternMatch (s : String) : Option (String × String) :=
  let cs :=
    match s.data with
    | c :: rest => if c == '`' || c == '"' then rest else s.data
    | [] => s.data
  match cs with
  | 't' :: 'a' :: 'b' :: rest =>
    let nameChars := rest.takeWhile (fun c => isWordChar c || pyIsSpace c)
    let after := rest.dropWhile (fun c => isWordChar c || pyIsSpace c)
    if nameChars.isEmpty then Option.none
    else
      let after2 :=
        match after with
        | c :: r2 => if c == '`' || c == '"' then r2 else after
        | [] => after
      match after2 with
      | '.' :: fpart =>
        (matchOptQuoteName fpart).map (fun fn => (String.mk nameChars, fn))
      | _ => Option.none
  | _ => Option.none

/-- `str.lstrip(chars)`. -/
def pyLstripSet (chars : List Char) (s : String) : String :=
  String.mk (s.data.dropWhile (chars.contains ·))

/-- One split step of `re.split(r"\s+as\s+", s, flags=re.IGNORECASE)`:
does a separator match start exactly at the head of `cs`?  If so, return
the remainder after the separator. -/
def asSepAt (cs : List Char) : Option (List Char) :=
  match cs.dropWhile pyIsSpace with
  | a :: s :: rest =>
    if cs.head?.any pyIsSpace && (a == 'a' || a == 'A') && (s == 's' || s == 'S') then
      match rest with
      | c :: _ => if pyIsSpace c then some (rest.dropWhile pyIsSpace) else Option.none
      | [] => Option.none
    else Option.none
  | _ => Option.none

theorem lengthDropWhileLe {α : Type} (p : α → Bool) (l : List α) :
    (l.dropWhile p).length ≤ l.length := by
  induction l with
  | nil => simp [List.dropWhile]
  | cons c tl ih => by_cases h : p c <;> simp [List.dropWhile, h] <;> omega

theorem asSepAt_length {cs rem : List Char} (h : asSepAt cs = some rem) :
    rem.length < cs.length := by
  unfold asSepAt at h
  cases hd : cs.dropWhile pyIsSpace with
  | nil => rw [hd] at h; exact absurd h (by simp)
  | cons a tl =>
    cases tl with
    | nil => rw [hd] at h; exact absurd h (by simp)
    | cons s rest =>
      rw [hd] at h
      by_cases hc : cs.head?.any pyIsSpace && (a == 'a' || a == 'A') && (s == 's' || s == 'S')
      · simp only [hc, if_pos] at h
        cases cs with
        | nil => simp at hc
        | cons c0 ctl =>
          have hc0 : pyIsSpace c0 := by
            simp only [List.head?_cons, Option.any_some, Bool.and_eq_true] at hc
            tauto
          have hdrop : (c0 :: ctl).dropWhile pyIsSpace = ctl.dropWhile pyIsSpace := by
            simp [List.dropWhile, hc0]
          rw [hdrop] at hd
          have h1 : (a :: s :: rest).length ≤ ctl.length := by
            rw [← hd]; exact lengthDropWhileLe _ _
          cases rest with
          | nil => exact absurd h (by simp)
          | cons r rtl =>
            by_cases hr : pyIsSpace r
            · simp only [hr, if_pos] at h
              have h2 : rem.length ≤ (r :: rtl).length := by
                cases h; exact lengthDropWhileLe _ _
              simp only [List.length_cons] at h1 h2 ⊢
              omega
            · simp [hr] at h
      · simp [hc] at h

/-- `re.split(r"\s+as\s+", s, flags=re.IGNORECASE)`. -/
def pySplitAs (s : String) : List String :=
  go [] s.data
where
  go (acc : List Char) : List Char → List String
    | [] => [String.mk acc.reverse]
    | c :: rest =>
      match hsep : asSepAt (c :: rest) with
      | some remainder =>
        have : remainder.length < (c :: rest).length := asSepAt_length hsep
        String.mk acc.reverse :: go [] remainder
      | Option.none => go (c :: acc) rest
  termination_by cs => cs.length

/-- `COMMA_PATTERN = r",\s*(?![^()]*\))"` split: a comma splits unless the
first parenthesis character after it is a closing one; the separator
consumes the comma and any following whitespace. -/
def commaPatternSplit (s : String) : List String :=
  go [] s.data
where
  go (acc : List Char) : List Char → List String
    | [] => [String.mk acc.reverse]
    | ',' :: rest =>
      match rest.dropWhile (fun c => c != '(' && c != ')') with
      | ')' :: _ => go (',' :: acc) rest
      | _ =>
        have : (rest.dropWhile pyIsSpace).length < (',' :: rest).length :=
          Nat.lt_succ_of_le (lengthDropWhileLe _ _)
        String.mk acc.reverse :: go [] (rest.dropWhile pyIsSpace)
    | c :: rest => go (c :: acc) rest
  termination_by cs => cs.length

/-! ### Module constants -/

/-- `FUNCTION_MAPPING` keys (the pypika function classes themselves are kept
abstract as `Term.func` nodes). -/
def FUNCTION_MAPPING_KEYS : List String :=
  ["COUNT", "SUM", "AVG", "MAX", "MIN", "ABS", "EXTRACT", "LOCATE",
   "TIMESTAMP", "IFNULL", "CONCAT", "NOW", "NULLIF", "MONTHNAME", "QUARTER", "MONTH"]

/-- `STAR_ALLOWED_FUNCTIONS = frozenset(("COUNT",))`. -/
def STAR_ALLOWED_FUNCTIONS : List String := ["COUNT"]

/-- `OPERATOR_MAPPING` keys (arithmetic operator dictionaries). -/
def OPERATOR_MAPPING_KEYS : List String := ["ADD", "SUB", "MUL", "DIV"]

/-- Modelled from the spec: the operator dictionary `OPERATOR_MAP` of
`frappe/database/operator_map.py` is not among the sources under
verification; its key set is reconstructed from the specification's operator
list (section 4.1: comparison/membership operators, like / not like, ilike,
between, is, timespan).  Keys are lower case; the engine looks them up after
`casefold()` / `lower()`.  The map is a plain module-level dictionary and is
therefore backend independent. -/
def OPERATOR_MAP : String → Option OpKind
  | "=" => some .eq
  | "!=" => some .ne
  | "<" => some .lt
  | ">" => some .gt
  | "<=" => some .le
  | "=<" => some .le
  | ">=" => some .ge
  | "=>" => some .ge
  | "in" => some .inOp
  | "not in" => some .notIn
  | "like" => some .like
  | "not like" => some .notLike
  | "ilike" => some .ilike
  | "is" => some .isOp
  | "between" => some .between
  | "timespan" => some .timespan
  | _ => Option.none

/-- `NestedSetHierarchy` (`frappe/database/utils.py`), re-exported by the
operator-map module as `NESTED_SET_OPERATORS`. -/
def NESTED_SET_OPERATORS : List String :=
  ["ancestors of", "descendants of", "not ancestors of", "not descendants of",
   "descendants of (inclusive)"]

/-- `CORE_DOCTYPES`: `DOCTYPES_FOR_DOCTYPE` (modelled from the doctype
metadata family; `frappe/model/base_document.py` is not among the sources
under verification) plus the names listed literally in the source. -/
def CORE_DOCTYPES : List String :=
  ["DocType", "DocField", "DocPerm", "DocType Action", "DocType Link", "DocType State",
   "Custom Field", "Property Setter", "Module Def", "__Auth", "__global_search",
   "Singles", "Sessions", "Series"]

/-- Modelled from the spec: field-name constants of `frappe/model/__init__.py`
(not among the sources under verification): standard fields present on every
document, optional bookkeeping columns, child-table linkage columns, and the
field types that denote child tables. -/
def default_fields : List String :=
  ["doctype", "name", "owner", "creation", "modified", "modified_by", "docstatus", "idx"]

def optional_fields : List String :=
  ["_user_tags", "_comments", "_assign", "_liked_by", "_seen"]

def OPTIONAL_FIELDS : List String := optional_fields

def child_table_fields : List String := ["parent", "parentfield", "parenttype"]

/-- `frappe.model.table_fields`: the field types denoting child tables. -/
def table_fields_types : List String := ["Table", "Table MultiSelect"]

/-! ### Metadata and environment -/

/-- A field definition supplied by the metadata provider. -/
structure FieldDef where
  fieldname : String
  fieldtype : String
  options : String := ""
  notNullable : Bool := false
  ignoreUserPermissions : Bool := false

/-- Doctype metadata (`frappe.get_meta` result), restricted to what the
engine consumes: the field list, whether `get_permissions(parenttype=...)`
is non-empty, and the default sort configuration. -/
structure Meta where
  fields : List FieldDef
  hasPermsFor : Option String → Bool := fun _ => true
  sortField : String := ""
  sortOrder : String := ""

def Meta.getField (m : Meta) (f : String) : Option FieldDef :=
  m.fields.find? (fun df => df.fieldname == f)

def Meta.hasField (m : Meta) (f : String) : Bool :=
  (m.getField f).isSome

def Meta.getTableFields (m : Meta) : List FieldDef :=
  m.fields.filter (fun df => table_fields_types.contains df.fieldtype)

def Meta.getLinkFields (m : Meta) : List FieldDef :=
  m.fields.filter (fun df => df.fieldtype == "Link")

/-- A user-permission restriction record. -/
structure UserPerm where
  doc : String
  applicableFor : Option String := Option.none

/-- Role-permission summary returned by the permission oracle
(`frappe.permissions.get_role_permissions`): whether `read` / `select` are
granted, whether some applicable permission has `if_owner` enabled, and the
set of permission types that apply only `if_owner`. -/
structure RolePerms where
  read : Bool := false
  select : Bool := false
  hasIfOwnerEnabled : Bool := false
  ifOwner : List String := []

/-- The external collaborators of the engine (metadata provider, permission
oracle, share registry, hooks, system settings, and the database-backed
helpers), supplied per query. -/
structure Env where
  getMeta : String → Option Meta := fun _ => Option.none
  clientCacheMeta : String → Option Meta := fun _ => Option.none
  asJson : List (String × FObj) → String := fun _ => ""
  parseDateStr : String → Option (Int × Option Int) := fun _ => Option.none
  getDateRange : String → FObj → FObj := fun _ _ => .none
  nestedSet : String → FObj → String → List String := fun _ _ _ => []
  hasPermission : String → String → String → Option String → Bool := fun _ _ _ _ => true
  onlyHasSelectPerm : String → String → Bool := fun _ _ => false
  getPermittedFields : String → Option String → String → String → List String :=
    fun _ _ _ _ => []
  getRolePermissions : String → String → RolePerms := fun _ _ => {}
  getShared : String → String → List String := fun _ _ => []
  getUserPermissions : String → List (String × List UserPerm) := fun _ => []
  strictUserPermissions : Bool := false
  permissionHooks : String → List String := fun _ => []
  serverScriptCondition : String → Option String := fun _ => Option.none

/-- Per-call engine configuration (the attributes `get_query` sets on
`self` before assembly). -/
structure Cfg where
  doctype : String
  backend : Backend := .mariadb
  user : String := "Administrator"
  applyPermissions : Bool := false
  ignoreUserPermissions : Bool := false
  dbQueryCompat : Bool := false
  validateFilters : Bool := false
  parentDoctype : Option String := Option.none
  referenceDoctype : Option String := Option.none

/-- `self.permission_doctype = parent_doctype or self.doctype`. -/
def Cfg.permissionDoctype (cfg : Cfg) : String :=
  cfg.parentDoctype.getD cfg.doctype

/-- `self.table`. -/
def Cfg.table (cfg : Cfg) : String :=
  docTypeTable cfg.doctype

/-- `self.permission_table`. -/
def Cfg.permissionTable (cfg : Cfg) : String :=
  docTypeTable cfg.permissionDoctype

/-- `frappe.get_meta`, which raises `DoesNotExistError` on an unknown
doctype. -/
def getMetaE (env : Env) (doctype : String) : Except Err Meta :=
  match env.getMeta doctype with
  | some m => .ok m
  | Option.none => .error .doesNotExist

/-- `str.strip(chars)` for a character set. -/
def pyStripSet (chars : List Char) (s : String) : String :=
  String.mk (((s.data.dropWhile (chars.contains ·)).reverse.dropWhile
    (chars.contains ·)).reverse)

/-- `str.replace("_", "").isalnum()` (validation of dotted-path segments). -/
def replaceUnderscoreIsalnum (s : String) : Bool :=
  let t := s.data.filter (fun c => c != '_')
  !t.isEmpty && t.all Char.isAlphanum

/-- `convert_to_value` (`frappe/database/utils.py`): booleans become 0/1,
dicts are JSON-serialized; `KeysView`/`ValuesView` have no counterpart in
the embedded value domain; everything else passes through. -/
def convert_to_value (env : Env) : FObj → FObj
  | .bool b => .int (if b then 1 else 0)
  | .dict xs => .str (env.asJson xs)
  | o => o

/-! ### Dynamic table fields (`DynamicTableField` hierarchy) -/

/-- The tagged dynamic-field variants `ChildTableField` / `LinkTableField`. -/
inductive DynField where
  | child (doctype fieldname parentDoctype : String)
      (parentFieldname : Option String) (aliasName : Option String)
  | link (doctype fieldname parentDoctype linkFieldname : String)
      (aliasName : Option String)

def DynField.doctype : DynField → String
  | .child dt _ _ _ _ => dt
  | .link dt _ _ _ _ => dt

def DynField.fieldname : DynField → String
  | .child _ f _ _ _ => f
  | .link _ f _ _ _ => f

def DynField.parentDoctype : DynField → String
  | .child _ _ p _ _ => p
  | .link _ _ p _ _ => p

def DynField.aliasName : DynField → Option String
  | .child _ _ _ _ a => a
  | .link _ _ _ _ a => a

def DynField.isChild : DynField → Bool
  | .child _ _ _ _ _ => true
  | _ => false

/-- `self.table` of the dynamic field. -/
def DynField.tableName (d : DynField) : String :=
  docTypeTable d.doctype

/-- `self.field` of the dynamic field. -/
def DynField.fieldTerm (d : DynField) : Term :=
  .field d.tableName d.fieldname

/-- `ChildTableField.apply_join` / `LinkTableField.apply_join`: the join is
added only when the target table is not already joined. -/
def DynField.applyJoin (d : DynField) (q : Query) : Query :=
  match d with
  | .child doctype _ parentDoctype parentFieldname _ =>
    let ct := docTypeTable doctype
    let mt := docTypeTable parentDoctype
    if !q.isJoined ct then
      let conds := Criterion.and
        (.binop .eq (.field ct "parent") (.field mt "name"))
        (.binop .eq (.field ct "parenttype") (.literal (.str parentDoctype)))
      let conds :=
        match parentFieldname with
        | some pf => Criterion.and conds (.binop .eq (.field ct "parentfield") (.literal (.str pf)))
        | Option.none => conds
      q.leftJoin ct conds
    else q
  | .link doctype _ parentDoctype linkFieldname _ =>
    let t := docTypeTable doctype
    let mt := docTypeTable parentDoctype
    if !q.isJoined t then
      q.leftJoin t (.binop .eq (.field t "name") (.field mt linkFieldname))
    else q

/-- `apply_select`: join, then select the target column with the optional
alias. -/
def DynField.applySelect (d : DynField) (q : Query) : Query :=
  let q := d.applyJoin q
  match d.aliasName with
  | some a => q.select (.aliased (.field d.tableName d.fieldname) a)
  | Option.none => q.select (.field d.tableName d.fieldname)

/-- `DynamicTableField.parse`: resolve a dotted or tab-qualified field
reference against the base doctype's metadata.  Metadata failures inside
the guarded `try` of the source yield `None`. -/
def DynField.parse (env : Env) (field0 : String) (doctype : String)
    (allowTab : Bool := true) : Option DynField :=
  if containsSubstr field0 "." then
    -- alias handling: last ` as ` occurrence wins
    let (field, aliasv) :=
      if containsSubstr (pyToLower field0) " as " then
        let parts := pySplitAs field0
        if parts.length > 1 then
          (pyStrip (parts.headD ""), some (pyStripSet ['`', '"'] (pyStrip (parts.getLastD ""))))
        else (field0, Option.none)
      else (field0, (Option.none : Option String))
    let childMatch := if allowTab then childTableFieldPatternMatch field else Option.none
    match childMatch with
    | some (childDoctypeName, childField) =>
      if childDoctypeName == doctype then Option.none
      else some (.child childDoctypeName childField doctype Option.none aliasv)
    | Option.none =>
      if !containsSubstr field "." then Option.none
      else
        match splitAtFirst '.' field.data with
        | Option.none => Option.none
        | some (potentialChars, targetChars) =>
          let potential := String.mk potentialChars
          let target := String.mk targetChars
          if !replaceUnderscoreIsalnum potential || !replaceUnderscoreIsalnum target then
            Option.none
          else
            match env.getMeta doctype with
            | Option.none => Option.none
            | some meta =>
              if !meta.hasField potential then Option.none
              else
                match meta.getField potential with
                | Option.none => Option.none
                | some linkedField =>
                  if linkedField.fieldtype == "Link" then
                    some (.link linkedField.options target doctype potential aliasv)
                  else if table_fields_types.contains linkedField.fieldtype then
                    some (.child linkedField.options target doctype (some potential) aliasv)
                  else Option.none
  else Option.none

/-! ### Field-level permission checks -/

/-- `Engine.get_permission_type`. -/
def getPermissionType (env : Env) (cfg : Cfg) (doctype : String) : String :=
  if env.onlyHasSelectPerm doctype cfg.user then "select" else "read"

/-- `Engine._check_field_permission` (the per-call permitted-fields cache of
the source is a pure memoization of `get_permitted_fields` and is elided). -/
def checkFieldPermission (env : Env) (cfg : Cfg) (doctype fieldname : String)
    (parentDoctype : Option String := Option.none) : Except Err Unit := do
  if !cfg.applyPermissions then return ()
  if OPTIONAL_FIELDS.contains fieldname then return ()
  let meta ← getMetaE env doctype
  if !meta.hasPermsFor parentDoctype then return ()
  let permissionType := getPermissionType env cfg doctype
  let permitted := env.getPermittedFields doctype parentDoctype permissionType cfg.user
  if !permitted.contains fieldname then
    throw .permissionError
  return ()

/-- `SQLFunctionParser._check_function_field_permission`. -/
def checkFunctionFieldPermission (env : Env) (cfg : Cfg) (fieldName : String) :
    Except Err Unit :=
  if cfg.applyPermissions && !cfg.doctype.isEmpty then
    checkFieldPermission env cfg cfg.doctype fieldName
  else .ok ()

/-! ### SQL function / operator dictionaries (`SQLFunctionParser`) -/

/-- A parsed function/operator argument: either a pypika term or a raw
Python value (pypika wraps raw values as constants). -/
inductive ArgVal where
  | term (t : Term)
  | raw (v : FObj)

def ArgVal.toTerm : ArgVal → Term
  | .term t => t
  | .raw v => .literal v

def ArgVal.isTerm : ArgVal → Bool
  | .term _ => true
  | .raw _ => false

/-- `SQLFunctionParser.is_function_dict`. -/
def isFunctionDict (d : List (String × FObj)) : Bool :=
  let functionKeys := (d.filter (fun kv => pyToLower kv.1 != "as")).map (·.1)
  functionKeys.length == 1 && FUNCTION_MAPPING_KEYS.contains (functionKeys.headD "")

/-- `SQLFunctionParser.is_operator_dict`. -/
def isOperatorDict (d : List (String × FObj)) : Bool :=
  let operatorKeys := (d.filter (fun kv => pyToLower kv.1 != "as")).map (·.1)
  operatorKeys.length == 1 && OPERATOR_MAPPING_KEYS.contains (operatorKeys.headD "")

/-- Last (key, value) pair of the dict whose key is not an `as` alias —
the Python loop of `_extract_dict_components` keeps the last such pair. -/
def lastNonAs : List (String × FObj) → Option (String × FObj)
  | [] => Option.none
  | (k, v) :: rest =>
    match lastNonAs rest with
    | some p => some p
    | Option.none => if pyToLower k == "as" then Option.none else some (k, v)

/-- Last alias value of the dict (`as` key, case-insensitive). -/
def lastAlias : List (String × FObj) → Option FObj
  | [] => Option.none
  | (k, v) :: rest =>
    match lastAlias rest with
    | some p => some p
    | Option.none => if pyToLower k == "as" then some v else Option.none

theorem lastNonAs_sizeOf :
    ∀ {d : List (String × FObj)} {k : String} {v : FObj},
      lastNonAs d = some (k, v) → sizeOf v < sizeOf d := by
  intro d
  induction d with
  | nil => intro k v h; simp [lastNonAs] at h
  | cons p rest ih =>
    intro k v h
    unfold lastNonAs at h
    cases hr : lastNonAs rest with
    | some q =>
      rw [hr] at h
      injection h with h2
      subst h2
      have := ih hr
      simp only [List.cons.sizeOf_spec]
      omega
    | none =>
      rw [hr] at h
      obtain ⟨pk, pv⟩ := p
      by_cases hk : pyToLower pk == "as"
      · simp [hk] at h
      · simp only [hk, Bool.false_eq_true, if_false] at h
        injection h with h2
        injection h2 with h3 h4
        subst h4
        simp only [List.cons.sizeOf_spec, Prod.mk.sizeOf_spec]
        omega

/-- `SQLFunctionParser._validate_alias`: the alias must be a string whose
stripped form is a non-empty plain identifier.  Returns the original
(unstripped) alias string, which the source uses for `as_`. -/
def validateAlias (al : FObj) : Except Err String :=
  match al with
  | .str s =>
    let t := pyStrip s
    if t.isEmpty then .error .validationError
    else if !identifierPatternMatch t then .error .validationError
    else .ok s
  | _ => .error .validationError

/-- `SQLFunctionParser._extract_dict_components`: yields
(function/operator name, its arguments, the truthy validated alias if any).
A missing or empty name, a name outside `validKeys`, or an invalid truthy
alias raise `ValidationError`. -/
def extractDictComponents (d : List (String × FObj)) (validKeys : List String) :
    Except Err (String × FObj × Option String) :=
  match lastNonAs d with
  | Option.none => .error .validationError
  | some (name, args) =>
    if name.isEmpty then .error .validationError
    else if !validKeys.contains name then .error .validationError
    else
      match lastAlias d with
      | some al =>
        if al.truthy then
          match validateAlias al with
          | .error e => .error e
          | .ok s => .ok (name, args, some s)
        else .ok (name, args, Option.none)
      | Option.none => .ok (name, args, Option.none)

theorem extractDictComponents_sizeOf
    {d : List (String × FObj)} {ks : List String} {n : String} {args : FObj}
    {al : Option String}
    (h : extractDictComponents d ks = .ok (n, args, al)) : sizeOf args < sizeOf d := by
  unfold extractDictComponents at h
  split at h
  · exact absurd h (by simp)
  · rename_i name args0 heq
    have hsz := lastNonAs_sizeOf heq
    split at h
    · exact absurd h (by simp)
    · split at h
      · exact absurd h (by simp)
      · split at h
        · split at h
          · split at h
            · exact absurd h (by simp)
            · injection h with h2
              injection h2 with h3 h4
              injection h4 with h5 h6
              subst h5
              exact hsz
          · injection h with h2
            injection h2 with h3 h4
            injection h4 with h5 h6
            subst h5
            exact hsz
        · injection h with h2
          injection h2 with h3 h4
          injection h4 with h5 h6
          subst h5
          exact hsz

/-- Digit string to integer (`int(arg)` on an `isdigit` string). -/
def digitsToInt (s : String) : Int :=
  s.data.foldl (fun n c => n * 10 + (c.toNat - 48 : Int)) 0

/-- `SQLFunctionParser._is_valid_field_name`. -/
def isValidFieldName (name : String) : Bool :=
  identifierPatternMatch name

/-- `SQLFunctionParser._validate_string_argument`: strip, then classify as
`*` (only inside COUNT), a quoted literal (quote-stripped and returned as a
raw value), a backtick-qualified field reference, a bare field name
(permission-checked), or a digit string (coerced to int); anything else
raises `ValidationError`. -/
def validateStringArgument (env : Env) (cfg : Cfg) (arg0 : String)
    (functionName : Option String) : Except Err ArgVal := do
  let arg := pyStrip arg0
  if arg.isEmpty then throw .validationError
  else if arg == "*" then
    match functionName with
    | some f =>
      if STAR_ALLOWED_FUNCTIONS.contains f then return .term .star
      else throw .validationError
    | Option.none => throw .validationError
  else if arg.length ≥ 2 &&
      (arg.data.headD ' ' == '\x27' || arg.data.headD ' ' == '"') &&
      arg.data.getLastD ' ' == arg.data.headD ' ' then
    -- note: pypika handles proper escaping of the literal with wrap_constant
    return .raw (.str (String.mk arg.data.tail.dropLast))
  else if strContains arg '`' then
    match backtickFieldParseMatch (pyStrip arg) with
    | some (tableName, fieldName) => return .term (.field ("tab" ++ tableName) fieldName)
    | Option.none => throw .validationError
  else if isValidFieldName arg then do
    checkFunctionFieldPermission env cfg arg
    return .term (.field cfg.table arg)
  else if pyIsDigit arg then
    return .raw (.int (digitsToInt arg))
  else throw .validationError

mutual

/-- `SQLFunctionParser.parse_function`: dispatch on the argument shape
(string, list, number, `None`), build the pypika function call, track a
truthy alias in the engine's `function_aliases`.  Of the mapped pypika
function classes only `NOW` is constructible with zero arguments; for every
other mapped name the zero-argument construction raises `TypeError`, which
the source converts to `ValidationError`. -/
def parseFunction (env : Env) (cfg : Cfg) (fa : List String)
    (d : List (String × FObj)) : Except Err (Term × List String) := do
  match hx : extractDictComponents d FUNCTION_MAPPING_KEYS with
  | .error e => throw e
  | .ok (functionName, functionArgs, aliasStr) =>
    let (call, fa₁) ←
      match hargs : functionArgs with
      | .str s => do
        let (av, fa₁) ← parseAndValidateArg env cfg fa (.str s) (some functionName)
        pure (Term.func functionName [av.toTerm], fa₁)
      | .list xs => do
        let (avs, fa₁) ← parseArgList env cfg fa xs functionName
        pure (Term.func functionName (avs.map ArgVal.toTerm), fa₁)
      | .int n => pure (Term.func functionName [.literal (.int n)], fa)
      | .bool b => pure (Term.func functionName [.literal (.bool b)], fa)
      | .float q => pure (Term.func functionName [.literal (.float q)], fa)
      | .none =>
        if functionName == "NOW" then pure (Term.func functionName [], fa)
        else throw .validationError
      | _ => throw .validationError
    match aliasStr with
    | some a => return (.aliased call a, fa₁ ++ [a])
    | Option.none => return (call, fa₁)
termination_by sizeOf d
decreasing_by
  all_goals simp_wf
  all_goals have hX := extractDictComponents_sizeOf hx
  all_goals simp at hX
  all_goals omega

/-- `SQLFunctionParser.parse_operator`: arithmetic dictionaries require a
list of exactly two operands; raw operands are wrapped as constants. -/
def parseOperator (env : Env) (cfg : Cfg) (fa : List String)
    (d : List (String × FObj)) : Except Err (Term × List String) := do
  match hx : extractDictComponents d OPERATOR_MAPPING_KEYS with
  | .error e => throw e
  | .ok (operatorName, operatorArgs, aliasStr) =>
    match hargs : operatorArgs with
    | .list xs =>
      match hxs : xs with
      | [l, r] => do
        let (left, fa₁) ← parseAndValidateArg env cfg fa l Option.none
        let (right, fa₂) ← parseAndValidateArg env cfg fa₁ r Option.none
        let expr := Term.arith operatorName left.toTerm right.toTerm
        match aliasStr with
        | some a => return (.aliased expr a, fa₂ ++ [a])
        | Option.none => return (expr, fa₂)
      | _ => throw .validationError
    | _ => throw .validationError
termination_by sizeOf d
decreasing_by
  all_goals simp_wf
  all_goals have hX := extractDictComponents_sizeOf hx
  all_goals simp at hX
  all_goals omega

/-- `SQLFunctionParser._parse_and_validate_argument`. -/
def parseAndValidateArg (env : Env) (cfg : Cfg) (fa : List String) (arg : FObj)
    (functionName : Option String) : Except Err (ArgVal × List String) := do
  match harg : arg with
  | .int n => return (.raw (.int n), fa)
  | .bool b => return (.raw (.bool b), fa)
  | .float q => return (.raw (.float q), fa)
  | .str s => do
    let av ← validateStringArgument env cfg s functionName
    return (av, fa)
  | .dict xs =>
    if isFunctionDict xs then do
      let (t, fa₁) ← parseFunction env cfg fa xs
      return (.term t, fa₁)
    else if isOperatorDict xs then do
      let (t, fa₁) ← parseOperator env cfg fa xs
      return (.term t, fa₁)
    else throw .validationError
  | .none => return (.raw .none, fa)
  | _ => throw .validationError
termination_by sizeOf arg
decreasing_by
  all_goals simp_wf
  all_goals subst harg
  all_goals simp
  all_goals try omega

/-- Left-to-right parsing of a list of function arguments. -/
def parseArgList (env : Env) (cfg : Cfg) (fa : List String) (xs : List FObj)
    (functionName : String) : Except Err (List ArgVal × List String) := do
  match xs with
  | [] => return ([], fa)
  | a :: rest => do
    let (av, fa₁) ← parseAndValidateArg env cfg fa a (some functionName)
    let (avs, fa₂) ← parseArgList env cfg fa₁ rest functionName
    return (av :: avs, fa₂)
termination_by sizeOf xs
decreasing_by
  all_goals simp_wf
  all_goals try simp
  all_goals omega

end

/-! ### SELECT field strings -/

/-- Alternative `` `[\w\s-]+` `` or `\w+` (table and alias parts of
`ALLOWED_FIELD_PATTERN`). -/
def allowedTablePart (cs : List Char) : Bool :=
  match cs with
  | '`' :: rest =>
    (match rest.getLast? with
     | some '`' =>
       let inner := rest.dropLast
       !inner.isEmpty && inner.all (fun c => isWordChar c || pyIsSpace c || c == '-')
     | _ => false)
  | _ => !cs.isEmpty && cs.all isWordChar

/-- Alternative `` `\w+` `` or `\w+` (field part of `ALLOWED_FIELD_PATTERN`). -/
def allowedFieldPart (cs : List Char) : Bool :=
  match cs with
  | '`' :: rest =>
    (match rest.getLast? with
     | some '`' =>
       let inner := rest.dropLast
       !inner.isEmpty && inner.all isWordChar
     | _ => false)
  | _ => !cs.isEmpty && cs.all isWordChar

/-- The core (no alias) of `ALLOWED_FIELD_PATTERN`:
`(?:(`[\w\s-]+`|\w+)\.)?(`\w+`|\w+)`. -/
def allowedFieldCore (cs : List Char) : Bool :=
  allowedFieldPart cs ||
    (match splitAtFirst '.' cs with
     | some (t, f) => allowedTablePart t && allowedFieldPart f
     | Option.none => false)

/-- `ALLOWED_FIELD_PATTERN` (case-insensitive, anchored): a core field
reference optionally followed by `\s+as\s+` and an alias. -/
def allowedFieldPatternMatch (s : String) : Bool :=
  allowedFieldCore s.data || hasAsSplit [] s.data
where
  hasAsSplit (pre : List Char) : List Char → Bool
    | [] => false
    | c :: rest =>
      (match asSepAt (c :: rest) with
       | some remainder => allowedFieldCore pre.reverse && allowedTablePart remainder
       | Option.none => false) || hasAsSplit (c :: pre) rest

/-- `_is_function_call`. -/
def isFunctionCall (s : String) : Bool :=
  functionCallPatternMatch s

/-- `_validate_select_field`: `*` and digit strings pass; function-call
syntax raises `ValidationError`; anything failing `ALLOWED_FIELD_PATTERN`
raises `PermissionError` (the source passes `frappe.PermissionError` for
this case); the `lru_cache` on the source function is a pure memoization
and is elided. -/
def validateSelectField (field : String) : Except Err String :=
  if field == "*" then .ok field
  else if pyIsDigit field then .ok field
  else if isFunctionCall field then .error .validationError
  else if allowedFieldPatternMatch field then .ok field
  else .error .permissionError

/-- `Engine.parse_string_field`: `*`, simple, backtick-quoted and
table-qualified names, with an optional alias. -/
def parseStringField (cfg : Cfg) (field : String) : Except Err Term := do
  if field == "*" then return .tableStar cfg.table
  let (fieldPart, aliasv) :=
    if containsSubstr (pyToLower field) " as " then
      let parts := pySplitAs field
      if parts.length > 1 then
        (pyStrip (parts.headD ""), some (pyStripSet ['`', '"'] (pyStrip (parts.getD 1 ""))))
      else (field, Option.none)
    else (field, Option.none)
  match fieldParseRegexMatch fieldPart with
  | Option.none => throw .validationError
  | some (tableName?, fieldName) =>
    let pypikaField ←
      match tableName? with
      | some tableName =>
        if !tableNamePatternMatch (pyLstripSet ['t', 'a', 'b'] tableName) then
          throw .validationError
        else
          let doctypeName :=
            if strStartsWith tableName "tab" then tableName.drop 3 else tableName
          pure (Term.field (docTypeTable doctypeName) fieldName)
      | Option.none => pure (Term.field cfg.table fieldName)
    match aliasv with
    | some a => return .aliased pypikaField a
    | Option.none => return pypikaField

/-! ### Child queries and field-list parsing -/

/-- A child-query descriptor (`ChildQuery`). -/
structure ChildQueryDesc where
  fieldname : String
  fields : List FObj
  parentDoctype : String
  doctype : String

/-- `ChildQuery.__init__`: looks up the owning field in the parent's
metadata; a missing field raises `AttributeError` (the source dereferences
`None.fieldtype`); a non-table field returns early, leaving a degenerate
object (modelled as `none`). -/
def childQueryInit (env : Env) (fieldname : String) (fields : List FObj)
    (parentDoctype : String) : Except Err (Option ChildQueryDesc) := do
  let meta ← getMetaE env parentDoctype
  match meta.getField fieldname with
  | Option.none => throw .attributeError
  | some df =>
    if !table_fields_types.contains df.fieldtype then return Option.none
    else return some ⟨fieldname, fields, parentDoctype, df.options⟩

/-- A parsed member of the field list: a pypika term, a dynamic field, or a
child-query descriptor. -/
inductive ParsedField where
  | term (t : Term)
  | dynamic (d : DynField)
  | childQuery (cq : Option ChildQueryDesc)

/-- The child-query fallback loop of `_parse_single_field_item`: uppercase
keys are rejected as unsupported functions/operators; values must be
lists/tuples/sets. -/
def childQueryLoop (env : Env) (cfg : Cfg) :
    List (String × FObj) → Except Err (List ParsedField)
  | [] => .ok []
  | (k, v) :: rest => do
    if pyIsUpper k then throw .validationError
    if !v.isListTupleSet then throw .validationError
    let cq ← childQueryInit env k v.elems cfg.doctype
    let others ← childQueryLoop env cfg rest
    return .childQuery cq :: others

/-- `Engine._parse_single_field_item`.  The source may return a single
item, a list, or `None`; this embedding uniformly returns the list of
produced fields.  Pre-built pypika `Term` inputs are outside the embedded
value domain. -/
def parseSingleFieldItem (env : Env) (cfg : Cfg) (fa : List String) (field : FObj) :
    Except Err (List ParsedField × List String) := do
  match field with
  | .dict xs =>
    if isFunctionDict xs then do
      let (t, fa₁) ← parseFunction env cfg fa xs
      return ([.term t], fa₁)
    else if isOperatorDict xs then do
      let (t, fa₁) ← parseOperator env cfg fa xs
      return ([.term t], fa₁)
    else do
      let parsed ← childQueryLoop env cfg xs
      return (parsed, fa)
  | .str s =>
    match DynField.parse env s cfg.doctype with
    | some dyn => return ([.dynamic dyn], fa)
    | Option.none => do
      let t ← parseStringField cfg s
      return ([.term t], fa)
  | _ => throw .validationError

/-- First phase of `Engine.parse_fields`: flatten the raw field argument
into a list of items, splitting comma-separated strings. -/
def initialFieldList : FObj → Except Err (List FObj)
  | .str s =>
    .ok (((commaPatternSplit s).map pyStrip).filter (fun f => !f.isEmpty) |>.map .str)
  | .list xs => .ok (flattenItems xs)
  | .tuple xs => .ok (flattenItems xs)
  | _ => .error .validationError
where
  flattenItems : List FObj → List FObj
    | [] => []
    | .none :: rest => flattenItems rest
    | .str s :: rest =>
      if strContains s ',' then
        ((((commaPatternSplit s).map pyStrip).filter (fun f => !f.isEmpty)).map FObj.str)
          ++ flattenItems rest
      else .str s :: flattenItems rest
    | item :: rest => item :: flattenItems rest

/-- Second phase of `Engine.parse_fields`: validate string items and parse
each item, threading the function-alias set. -/
def parseFieldItems (env : Env) (cfg : Cfg) :
    List FObj → List String → Except Err (List ParsedField × List String)
  | [], fa => .ok ([], fa)
  | item :: rest, fa => do
    let (parsed, fa₁) ←
      match item with
      | .str s => do
        let sanitized ← validateSelectField (pyStrip s)
        if !sanitized.isEmpty then parseSingleFieldItem env cfg fa (.str sanitized)
        else pure ([], fa)
      | other => parseSingleFieldItem env cfg fa other
    let (parsedRest, fa₂) ← parseFieldItems env cfg rest fa₁
    return (parsed ++ parsedRest, fa₂)

/-- `Engine.parse_fields`. -/
def parseFields (env : Env) (cfg : Cfg) (fa : List String) (fields : FObj) :
    Except Err (List ParsedField × List String) := do
  if !fields.truthy then return ([], fa)
  let items ← initialFieldList fields
  parseFieldItems env cfg items fa

/-! ### Filter building blocks -/

def FObj.isNone : FObj → Bool
  | .none => true
  | _ => false

/-- Name of a pypika term (`Field.name`). -/
def Term.nameOf : Term → String
  | .field _ n => n
  | .bare n => n
  | .tableStar _ => "*"
  | .star => "*"
  | .aliased t _ => t.nameOf
  | _ => ""

/-- `isinstance(x, Field)` over embedded terms (`Star` is a `Field`
subclass in pypika). -/
def Term.isFieldInstance : Term → Bool
  | .field _ _ => true
  | .bare _ => true
  | .tableStar _ => true
  | .star => true
  | _ => false

/-- `isinstance(x, functions.IfNull | functions.Coalesce)`. -/
def Term.isIfnullOrCoalesce : Term → Bool
  | .func n _ => n == "IFNULL" || n == "COALESCE"
  | _ => false

/-- `filter_field_name.split(".")[-1]` applied when the name contains a
dot. -/
def lastDotSegment (s : String) : String :=
  if strContains s '.' then (strSplitOnChar '.' s).getLastD s else s

/-- `int(s)` for fallback parsing: optional sign and digits after
stripping; `None` on failure (`ValueError` is caught by the caller). -/
def pyIntParse (s : String) : Option Int :=
  let t := pyStrip s
  let (neg, digits) :=
    match t.data with
    | '-' :: rest => (true, rest)
    | '+' :: rest => (false, rest)
    | cs => (false, cs)
  if digits.isEmpty || !digits.all Char.isDigit then Option.none
  else
    let n := digits.foldl (fun acc c => acc * 10 + (c.toNat - 48 : Int)) 0
    some (if neg then -n else n)

/-- Modelled from the spec: `get_default_df` of `frappe/model/meta.py` (not
among the sources under verification) supplies definitions for standard
fields: `creation`/`modified` are Datetime, `idx`/`docstatus` are Int, the
remaining standard and child-linkage fields are Data. -/
def getDefaultDf (fieldname : String) : Option FieldDef :=
  if (default_fields ++ child_table_fields).contains fieldname then
    if fieldname == "creation" || fieldname == "modified" then
      some ⟨fieldname, "Datetime", "", false, false⟩
    else if fieldname == "idx" || fieldname == "docstatus" then
      some ⟨fieldname, "Int", "", false, false⟩
    else some ⟨fieldname, "Data", "", false, false⟩
  else Option.none

/-- `Engine._get_ifnull_fallback`: a type-appropriate SQL fallback literal.
The trailing `type_map` lookup of the source returns `''` on every path
(both the text types and the exception handler end in `return "''"`). -/
def getIfnullFallback (env : Env) (doctype fieldname : String) : String :=
  match env.getMeta doctype with
  | Option.none => "''"
  | some meta =>
    let df :=
      match meta.getField fieldname with
      | some df => some df
      | Option.none => getDefaultDf fieldname
    match df with
    | Option.none => "''"
    | some df =>
      if ["Link", "Data", "Dynamic Link"].contains df.fieldtype then "''"
      else if df.fieldtype == "Date" || df.fieldtype == "Datetime" then "'0001-01-01'"
      else if df.fieldtype == "Time" then "'00:00:00'"
      else if ["Float", "Int", "Currency", "Percent", "Check"].contains df.fieldtype then "0"
      else "''"

/-- The textual fallback re-parsed into a value
(`fallback_sql` handling in `_build_criterion_for_simple_filter`). -/
def parseFallbackSql (s : String) : FObj :=
  if s == "''" then .str ""
  else if strStartsWith s "'" && strEndsWith s "'" then .str ((s.drop 1).dropRight 1)
  else
    match pyIntParse s with
    | some n => .int n
    | Option.none => .str s

/-- `Engine._is_field_nullable` (reads the client-cache copy of the
metadata; any failure counts as nullable). -/
def isFieldNullable (env : Env) (doctype fieldname : String) : Bool :=
  if ["name", "modified", "creation"].contains fieldname then false
  else
    match env.clientCacheMeta doctype with
    | Option.none => true
    | some meta =>
      match meta.getField fieldname with
      | Option.none => true
      | some df =>
        if ["Check", "Float", "Int", "Currency", "Percent"].contains df.fieldtype then false
        else if df.notNullable then false
        else true

/-- `Engine._should_apply_ifnull`. -/
def shouldApplyIfnull (env : Env) (cfg : Cfg) (doctype fieldname operator : String)
    (value : FObj) : Bool :=
  if !cfg.dbQueryCompat then false
  else if !isFieldNullable env doctype fieldname then false
  else if value.isNone then false
  else if pyToLower operator == "like" || pyToLower operator == "is" then false
  else if pyToLower operator == "=" && value.truthy then false
  else
    let df := (env.getMeta doctype).bind (fun m => m.getField fieldname)
    let isDatetimeField :=
      match df with
      | some d => d.fieldtype == "Date" || d.fieldtype == "Datetime"
      | Option.none => false
    let dtcm := isDatetimeField || fieldname == "creation" || fieldname == "modified"
    if (pyToLower operator == ">" || pyToLower operator == ">=") && dtcm then false
    else if pyToLower operator == "between" && dtcm then false
    else if pyToLower operator == "in" then
      if value.isListOrTuple then
        value.elems.any (fun v => v.isNone || v.pyEq (.str ""))
      else false
    else if pyToLower operator == "not in" then true
    else true

/-- `_apply_date_field_filter_conversion`: truncate datetime filter values
to dates when the filtered field is of type Date.  The guarded `try` of the
source catches `AttributeError`/`TypeError`/`KeyError` but NOT
`DoesNotExistError`, so an unknown doctype propagates. -/
def applyDateFieldFilterConversion (env : Env) (value : FObj) (operator : String)
    (doctype : String) (field : FObj) : Except Err FObj := do
  let fieldName :=
    match field with
    | .str s => if strContains s '.' then (strSplitOnChar '.' s).getLastD s else s
    | _ => ""   -- non-string field objects are rejected before this helper runs
  if CORE_DOCTYPES.contains doctype then return value
  let meta ← getMetaE env doctype
  match meta.getField fieldName with
  | Option.none => return value
  | some df =>
    if df.fieldtype != "Date" then return value
    else if pyToLower operator == "between" && value.isListOrTuple
        && value.elems.length == 2 then
      return .tuple (value.elems.map FObj.toDate)
    else
      match value with
      | .datetime d _ => return .date d
      | _ => return value

/-- Start-of-day / end-of-day times in microseconds
(`datetime.time()` and `datetime.time(23, 59, 59, 999999)`). -/
def startOfDayUsec : Int := 0
def endOfDayUsec : Int := 86399999999

/-- Modelled from the spec: `_convert_type_for_between_filters` of
`frappe/model/db_query.py` (not among the sources under verification).
Spec section 8, scenario 5: a `between` filter on a Datetime field with two
date-only values "expands the range to start-of-day/end-of-day timestamps";
the helper "handles strings, dates, datetimes".  String parsing uses the
environment's date parser. -/
def convertTypeForBetween (env : Env) (v : FObj) (setTimeUsec : Int) : FObj :=
  match v with
  | .date d => .datetime d setTimeUsec
  | .datetime d t => .datetime d t
  | .str s =>
    match env.parseDateStr s with
    | some (d, some t) => .datetime d t
    | some (d, Option.none) => .datetime d setTimeUsec
    | Option.none => .str s
  | o => o

/-- `_apply_datetime_field_filter_conversion`: expand date endpoints of a
`between` filter on Datetime fields (and `creation`/`modified`). -/
def applyDatetimeFieldFilterConversion (env : Env) (betweenValues : FObj)
    (doctype : String) (field : FObj) : Except Err FObj := do
  let fieldName :=
    match field with
    | .str s => if strContains s '.' then (strSplitOnChar '.' s).getLastD s else s
    | _ => ""
  let df ←
    if CORE_DOCTYPES.contains doctype then pure Option.none
    else do
      let meta ← getMetaE env doctype
      pure (meta.getField fieldName)
  let isDatetimeTarget :=
    fieldName == "creation" || fieldName == "modified" ||
      (match df with
       | some d => d.fieldtype == "Datetime"
       | Option.none => false)
  if !isDatetimeTarget then return betweenValues
  match betweenValues.elems with
  | [fromVal, toVal] =>
    return .tuple [convertTypeForBetween env fromVal startOfDayUsec,
                   convertTypeForBetween env toVal endOfDayUsec]
  | _ => return betweenValues

/-- The child-table fallback search of
`Engine._validate_and_prepare_filter_field`: when a simple fieldname is not
on the main doctype, look for it among the child tables (a child doctype
whose metadata is missing is skipped). -/
def findChildWithField (env : Env) (meta? : Option Meta) (dtTruthy : Bool)
    (target : String) : Option FieldDef :=
  match meta? with
  | Option.none => Option.none
  | some meta =>
    if dtTruthy then Option.none
    else if (default_fields ++ optional_fields ++ child_table_fields).contains target then
      Option.none
    else if meta.hasField target then Option.none
    else
      meta.getTableFields.find? (fun df =>
        match env.getMeta df.options with
        | some childMeta => childMeta.hasField target
        | Option.none => false)

/-- `Engine._validate_and_prepare_filter_field`: validate a filter
fieldname, resolve dynamic fields (adding their joins), and return the
pypika field.  Pre-built pypika `Term` inputs are outside the embedded
value domain; every non-string value reaches a `TypeError` through the
source's containment/regex chain. -/
def validateAndPrepareFilterField (env : Env) (cfg : Cfg) (q : Query)
    (field : FObj) (doctype : Option String) : Except Err (Term × Query) := do
  match field with
  | .str f =>
    if strContains f '`' then
      match backtickFieldParseMatch (pyStrip f) with
      | some (tableName, fieldName) => return (.field (docTypeTable tableName) fieldName, q)
      | Option.none => throw .validationError
    else if containsSubstr f "." then
      match DynField.parse env f cfg.doctype false with
      | some dyn => do
        let parentForPerm := if dyn.isChild then some dyn.parentDoctype else Option.none
        checkFieldPermission env cfg dyn.doctype dyn.fieldname parentForPerm
        let q := dyn.applyJoin q
        return (dyn.fieldTerm, q)
      | Option.none => throw .validationError
    else
      if !simpleFieldPatternMatch f then throw .validationError
      let dtTruthy :=
        match doctype with
        | some d => !d.isEmpty
        | Option.none => false
      let targetDoctype := if dtTruthy then doctype.getD cfg.doctype else cfg.doctype
      if dtTruthy && targetDoctype != cfg.doctype then do
        let parentMeta ← getMetaE env cfg.doctype
        match (parentMeta.getTableFields.find?
            (fun df => df.options == targetDoctype)).map (fun df => df.fieldname) with
        | Option.none => throw .validationError
        | some pf => do
          let handler := DynField.child targetDoctype f cfg.doctype (some pf) Option.none
          checkFieldPermission env cfg targetDoctype f (some cfg.doctype)
          let q := handler.applyJoin q
          return (handler.fieldTerm, q)
      else do
        let meta? :=
          if CORE_DOCTYPES.contains cfg.doctype then Option.none
          else env.getMeta cfg.doctype
        match findChildWithField env meta? dtTruthy f with
        | some childDf => do
          let handler := DynField.child childDf.options f cfg.doctype
            (some childDf.fieldname) Option.none
          checkFieldPermission env cfg childDf.options f (some cfg.doctype)
          let q := handler.applyJoin q
          return (handler.fieldTerm, q)
        | Option.none => do
          let parentForPerm := if dtTruthy then cfg.parentDoctype else Option.none
          checkFieldPermission env cfg targetDoctype f parentForPerm
          return (.field (docTypeTable targetDoctype) f, q)
  | _ => throw .typeError

/-- The operator selection of `_build_criterion_for_simple_filter`
(lines 594-599): on Postgres a `like` operator (any letter case) is
replaced by `ILIKE` for case-insensitive search; every other operator —
including `not like` — is looked up unchanged in `OPERATOR_MAP`
(`KeyError` on unknown operators). -/
def selectOperatorFn (cfg : Cfg) (opStr : String) : Except Err OpKind :=
  if cfg.backend == .postgres && pyToLower opStr == "like" then
    pure OpKind.ilike   -- use ILIKE to support case-insensitive search in postgres
  else
    match OPERATOR_MAP (pyToLower opStr) with
    | some k => pure k
    | Option.none => throw .keyError

/-- `Engine._build_criterion_for_simple_filter`. -/
def buildCriterionForSimpleFilter (env : Env) (cfg : Cfg) (q : Query)
    (field : FObj) (value : FObj) (operator : FObj := .str "=")
    (doctype : Option String := Option.none) : Except Err (Criterion × Query) := do
  let (fieldT, q) ← validateAndPrepareFilterField env cfg q field doctype
  -- `isinstance(value, Field)` / `isinstance(value, Document)`:
  -- pre-built pypika fields and documents are outside the value domain
  let value0 := convert_to_value env value
  let opStr0 ←
    match operator with
    | .str o => pure o
    | _ => throw .attributeError   -- `.lower()` on a non-string operator
  let (opStr, value1) ←
    if pyToLower opStr0 == "timespan" || pyToLower opStr0 == "previous"
        || pyToLower opStr0 == "next" then
      pure ("between", env.getDateRange (pyToLower opStr0) value0)
    else pure (opStr0, value0)
  let targetDoctype :=
    match doctype with
    | some d => if d.isEmpty then cfg.doctype else d
    | Option.none => cfg.doctype
  let value2 ←
    if value1.isDatetime || (value1.isListOrTuple && value1.elems.any FObj.isDatetime) then
      applyDateFieldFilterConversion env value1 opStr targetDoctype field
    else pure value1
  let value3 ←
    if pyToLower opStr == "between" && value2.isListOrTuple && value2.elems.length == 2 then
      applyDatetimeFieldFilterConversion env value2 targetDoctype field
    else pure value2
  let value4 :=
    if !value3.truthy && value3.isListTupleSet then FObj.tuple [.str ""] else value3
  let value5 :=
    if cfg.dbQueryCompat && value4.isNone
        && (pyToLower opStr == "in" || pyToLower opStr == "not in") then
      FObj.tuple [.str ""]
    else value4
  if NESTED_SET_OPERATORS.contains opStr then do
    let originalFieldName :=
      match field with
      | .str s => s
      | _ => fieldT.nameOf
    let mainMeta ← getMetaE env cfg.doctype
    let refDoctype :=
      if mainMeta.hasField originalFieldName then
        match mainMeta.getField originalFieldName with
        | some df => df.options
        | Option.none => cfg.doctype
      else cfg.doctype
    let nodes := env.nestedSet refDoctype value5 opStr
    let opK :=
      if opStr == "not ancestors of" || opStr == "not descendants of" then OpKind.notIn
      else OpKind.inOp
    let nodesVal :=
      if nodes.isEmpty then FObj.tuple [.str ""] else FObj.list (nodes.map .str)
    return (.binop opK fieldT (.literal nodesVal), q)
  let opK ← selectOperatorFn cfg opStr
  let filterFieldName :=
    lastDotSegment
      (match field with
       | .str s => s
       | _ => fieldT.nameOf)
  if value5.isNone && fieldT.isFieldInstance then
    if opK == .ne then
      let fallback := parseFallbackSql (getIfnullFallback env targetDoctype filterFieldName)
      return (.binop opK fieldT (.literal fallback), q)
    else return (.isNull fieldT, q)
  else
    if fieldT.isIfnullOrCoalesce then return (.binop opK fieldT (.literal value5), q)
    if shouldApplyIfnull env cfg targetDoctype filterFieldName opStr value5 then
      let fallback := parseFallbackSql (getIfnullFallback env targetDoctype filterFieldName)
      if fallback.pyEq value5 && opStr == "=" then
        return (.or (.isNull fieldT) (.binop .eq fieldT (.literal value5)), q)
      else if fallback.pyEq value5 && opStr == "!=" then
        return (.binop opK fieldT (.literal value5), q)
      else
        return (.binop opK (.func "IFNULL" [fieldT, .literal fallback]) (.literal value5), q)
    else return (.binop opK fieldT (.literal value5), q)

/-! ### Nested filters -/

mutual

/-- `Engine._parse_nested_filters`: parse
`[cond, "and"/"or", cond, ...]`. -/
def parseNestedFilters (env : Env) (cfg : Cfg) (nl : FObj) (q : Query) :
    Except Err (Option Criterion × Query) :=
  match nl with
  | .list xs => parseNestedCore env cfg xs q
  | .tuple xs => parseNestedCore env cfg xs q
  | _ => throw .validationError
termination_by (sizeOf nl, 0)

/-- Body of `_parse_nested_filters` over the element list: the first item
must be a condition; the rest alternates operators and conditions. -/
def parseNestedCore (env : Env) (cfg : Cfg) (items : List FObj) (q : Query) :
    Except Err (Option Criterion × Query) := do
  match items with
  | [] => return (Option.none, q)
  | first :: rest =>
    if !first.isListOrTuple then throw .validationError
    let (c, q) ← condToCrit env cfg first q
    let (c, q) ← nestedGo env cfg c q rest
    return (some c, q)
termination_by (sizeOf items, 0)

/-- The operator/condition loop of `_parse_nested_filters`: each operator
must be the string `and` or `or` (case-insensitive) and must be followed by
a condition. -/
def nestedGo (env : Env) (cfg : Cfg) (cur : Criterion) (q : Query) :
    List FObj → Except Err (Criterion × Query)
  | [] => return (cur, q)
  | opItem :: rest => do
    let opStr ←
      match opItem with
      | .str o =>
        if pyToLower o == "and" || pyToLower o == "or" then pure o
        else throw .validationError
      | _ => throw .validationError
    match rest with
    | [] => throw .validationError   -- filter condition missing after operator
    | nextCond :: rest2 => do
      if !nextCond.isListOrTuple then throw .validationError
      let (nc, q) ← condToCrit env cfg nextCond q
      let cur2 := if pyToLower opStr == "and" then Criterion.and cur nc else Criterion.or cur nc
      nestedGo env cfg cur2 q rest2
termination_by items => (sizeOf items, 0)

/-- `Engine._condition_to_criterion`: a condition is either a nested
sub-expression (first element a condition, second a string) or a simple
2/3/4-element filter. -/
def condToCrit (env : Env) (cfg : Cfg) (c : FObj) (q : Query) :
    Except Err (Criterion × Query) := do
  if !c.isListOrTuple then throw .validationError
  let cs := c.elems
  let isNested := cs.length ≥ 3 && (cs.getD 1 .none).isStr && (cs.getD 0 .none).isListOrTuple
  if isNested then do
    let (copt, q) ← parseNestedFilters env cfg c q
    match copt with
    | some cr => return (cr, q)
    | Option.none => throw .typeError   -- unreachable: the list has ≥ 3 items
  else
    match cs with
    | [f, op, v] =>
      if op.isStr && (OPERATOR_MAP (match op with | .str o => pyToLower o | _ => "")).isSome then
        buildCriterionForSimpleFilter env cfg q f v op Option.none
      else throw .validationError
    | [d, f, op, v] =>
      if op.isStr && (OPERATOR_MAP (match op with | .str o => pyToLower o | _ => "")).isSome then
        match d with
        | .str ds => buildCriterionForSimpleFilter env cfg q f v op (some ds)
        | .none => buildCriterionForSimpleFilter env cfg q f v op Option.none
        | _ => throw .typeError   -- non-string doctype fails in metadata access
      else throw .validationError
    | [f, v] => buildCriterionForSimpleFilter env cfg q f v (.str "=") Option.none
    | _ => throw .validationError
termination_by (sizeOf c, 1)

end

/-! ### Filter application -/

/-- `Engine._apply_filter`: build the criterion and either collect it (for
OR filters) or AND it onto the query (pypika criteria are truthy objects,
so the `if criterion:` guard always passes). -/
def applyFilterSimple (env : Env) (cfg : Cfg) (q : Query) (field value : FObj)
    (operator : FObj) (doctype : Option String) (collect : Bool) :
    Except Err (Query × List Criterion) := do
  let (c, q) ← buildCriterionForSimpleFilter env cfg q field value operator doctype
  if collect then return (q, [c]) else return (q.where_ c, [])

/-- `Engine.apply_list_filters`: 2/3/4-element simple filters. -/
def applyListFilters (env : Env) (cfg : Cfg) (q : Query) (row : List FObj)
    (collect : Bool) : Except Err (Query × List Criterion) := do
  match row with
  | [f, v] => applyFilterSimple env cfg q f v (.str "=") Option.none collect
  | [f, op, v] => applyFilterSimple env cfg q f v op Option.none collect
  | [d, f, op, v] =>
    match d with
    | .str ds => applyFilterSimple env cfg q f v op (some ds) collect
    | .none => applyFilterSimple env cfg q f v op Option.none collect
    | _ => throw .typeError   -- non-string doctype fails in metadata access
  | _ => throw .valueError   -- `raise ValueError(f"Unknown filter format: ...")`

/-- `Engine.apply_dict_filters`: each key/value pair is AND-ed; a
list/tuple value unpacks as `(operator, operand)` (a wrong arity raises
`ValueError` from Python unpacking). -/
def applyDictFilters (env : Env) (cfg : Cfg) (q : Query) :
    List (String × FObj) → Bool → Except Err (Query × List Criterion)
  | [], _ => .ok (q, [])
  | (f, v) :: rest, collect => do
    let (op, v2) ←
      if v.isListOrTuple then
        match v.elems with
        | [o, w] => pure (o, w)
        | _ => throw .valueError
      else pure ((.str "=" : FObj), v)
    let (q, cs) ← applyFilterSimple env cfg q (.str f) v2 op Option.none collect
    let (q, cs2) ← applyDictFilters env cfg q rest collect
    return (q, cs ++ cs2)

/-- Whether a filter list looks like a nested boolean structure: a string
at an odd index, or a string first element. -/
def looksNested (xs : List FObj) : Bool :=
  ((xs.enum.filter (fun p => p.1 % 2 != 0)).any (fun p => p.2.isStr)) ||
    (xs.length > 0 && (xs.getD 0 .none).isStr)

/-- The single-grouped-condition shape `[[cond, op, cond]]`:
one element, itself a list/tuple of length ≥ 3 whose second item is a
string. -/
def isSingleGroup (xs : List FObj) : Bool :=
  xs.length == 1 && (xs.getD 0 .none).isListOrTuple &&
    (xs.getD 0 .none).elems.length ≥ 3 && ((xs.getD 0 .none).elems.getD 1 .none).isStr

mutual

/-- `Engine.apply_filters`: the main filter dispatcher.  `None` is a no-op;
scalars shorthand `name = value`; dicts AND their pairs; lists are
classified as identifier lists (`name IN ...`), nested boolean trees,
single-group nested trees, or plain AND-ed filter rows.  The nested-parsing
`try/except` of the source re-raises with the original exception type, so
errors pass through unchanged.  Pre-built pypika `Criterion` inputs are
outside the embedded value domain. -/
def applyFilters (env : Env) (cfg : Cfg) (q : Query) (filters : FObj)
    (collect : Bool) : Except Err (Query × List Criterion) := do
  match filters with
  | .none => return (q, [])
  | .str s => applyDictFilters env cfg q [("name", convert_to_value env (.str s))] collect
  | .int n => applyDictFilters env cfg q [("name", convert_to_value env (.int n))] collect
  | .bool b => applyDictFilters env cfg q [("name", convert_to_value env (.bool b))] collect
  | .dict xs => applyDictFilters env cfg q xs collect
  | .list xs => applyFilterList env cfg q filters xs collect
  | .tuple xs => applyFilterList env cfg q filters xs collect
  | _ => throw .valueError   -- `Unsupported filters type`
termination_by (sizeOf filters, 1)

/-- The list branch of `apply_filters`. -/
def applyFilterList (env : Env) (cfg : Cfg) (q : Query) (orig : FObj)
    (xs : List FObj) (collect : Bool) : Except Err (Query × List Criterion) := do
  if xs.isEmpty then return (q, [])
  if xs.all FObj.isFilterValue then
    applyDictFilters env cfg q
      [("name", .tuple [.str "in", .tuple (xs.map (convert_to_value env))])] collect
  else if isSingleGroup xs then do
    -- single grouped condition [[cond, op, cond]]; applied directly to the
    -- query even when collecting
    let (c, q) ← condToCrit env cfg (xs.getD 0 .none) q
    return (q.where_ c, [])
  else if looksNested xs then do
    let (copt, q) ← parseNestedFilters env cfg orig q
    match copt with
    | some c => return (q.where_ c, [])
    | Option.none => return (q, [])
  else applyFilterItems env cfg q xs collect
termination_by (sizeOf xs, 1)

/-- The plain AND-ed item loop of `apply_filters`. -/
def applyFilterItems (env : Env) (cfg : Cfg) (q : Query) :
    List FObj → Bool → Except Err (Query × List Criterion)
  | [], _ => pure (q, [])
  | item :: rest, collect => do
    let (q, cs) ←
      match item with
      | .list ys => applyListFilters env cfg q ys collect
      | .tuple ys => applyListFilters env cfg q ys collect
      | .dict ys => applyFilters env cfg q (.dict ys) collect
      | _ => throw .valueError   -- `Invalid item type in filter list`
    let (q, cs2) ← applyFilterItems env cfg q rest collect
    return (q, cs ++ cs2)
termination_by items _ => (sizeOf items, 0)

end

/-- `Engine.apply_or_filters`: collect the criteria and OR them together
(`reduce(lambda a, b: a | b, criteria)`). -/
def applyOrFilters (env : Env) (cfg : Cfg) (q : Query) (orFilters : FObj) :
    Except Err Query := do
  match orFilters with
  | .none => return q
  | _ => do
    let (q, criteria) ← applyFilters env cfg q orFilters true
    match criteria with
    | [] => return q
    | c :: rest => return q.where_ (rest.foldl Criterion.or c)

/-! ### Permission conditions -/

/-- `Engine.requires_owner_constraint`: true when `select`/`read` is not
available without being the creator — `has_if_owner_enabled` is set, the
`if_owner` set is non-empty, and no granted `select`/`read` lies outside
it. -/
def requiresOwnerConstraint (rp : RolePerms) : Bool :=
  if !rp.hasIfOwnerEnabled then false
  else if rp.ifOwner.isEmpty then false
  else if rp.select && !rp.ifOwner.contains "select" then false
  else if rp.read && !rp.ifOwner.contains "read" then false
  else true

/-- `Engine.get_doctype_link_fields`: the permission doctype's own primary
key (as an implicit link to itself) followed by its link fields. -/
def getDoctypeLinkFields (env : Env) (cfg : Cfg) : Except Err (List FieldDef) := do
  let meta ← getMetaE env cfg.permissionDoctype
  return ⟨"name", "", cfg.permissionDoctype, false, false⟩ :: meta.getLinkFields

/-- Truthiness of an optional string attribute (`perm.get("applicable_for")`). -/
def optStrTruthy : Option String → Bool
  | some s => !s.isEmpty
  | Option.none => false

/-- The document names admitted by the user-permission records of one link
field (`docs` accumulation in `get_user_permission_conditions`). -/
def userPermDocs (cfg : Cfg) (df : FieldDef) (perms : List UserPerm) : List String :=
  perms.foldr
    (fun perm acc =>
      if !optStrTruthy perm.applicableFor then perm.doc :: acc
      else if df.fieldname == "name" && optStrTruthy cfg.referenceDoctype then
        if perm.applicableFor == cfg.referenceDoctype then perm.doc :: acc else acc
      else if perm.applicableFor == some cfg.permissionDoctype then perm.doc :: acc
      else acc) []

/-- `Engine.get_user_permission_conditions`. -/
def getUserPermissionConditions (env : Env) (cfg : Cfg) : Except Err (List Criterion) := do
  if cfg.ignoreUserPermissions then return []
  let userPermissions := env.getUserPermissions cfg.user
  if userPermissions.isEmpty then return []
  let linkFields ← getDoctypeLinkFields env cfg
  let ptable := cfg.permissionTable
  return linkFields.foldr
    (fun df acc =>
      if df.ignoreUserPermissions then acc
      else
        let upv := ((userPermissions.find? (fun p => p.1 == df.options)).map (·.2)).getD []
        if upv.isEmpty then acc
        else
          let docs := userPermDocs cfg df upv
          if docs.isEmpty then acc
          else
            let fieldTerm := Term.field ptable df.fieldname
            let inCond := Criterion.binop .inOp fieldTerm (.literal (.list (docs.map .str)))
            if env.strictUserPermissions then inCond :: acc
            else
              let emptyCond := Criterion.binop .eq
                (.func "IFNULL" [fieldTerm, .literal (.str "")]) (.literal (.str ""))
              Criterion.or emptyCond inCond :: acc) []

/-- `Engine.get_permission_query_conditions`: raw fragments contributed by
permission-query hooks and the doctype's permission server script, each
wrapped in parentheses. -/
def getPermissionQueryConditions (env : Env) (cfg : Cfg) : List Criterion :=
  let hookConds := (env.permissionHooks cfg.permissionDoctype).filterMap
    (fun c => if c.isEmpty then Option.none else some (Criterion.raw ("(" ++ c ++ ")")))
  let scriptConds :=
    match env.serverScriptCondition cfg.permissionDoctype with
    | some c => if c.isEmpty then [] else [Criterion.raw ("(" ++ c ++ ")")]
    | Option.none => []
  hookConds ++ scriptConds

/-- `Engine.add_permission_conditions`: share-only access without role
permissions; otherwise (owner constraint OR user permissions) AND hook
conditions, the whole OR-ed with shared documents when any exist. -/
def addPermissionConditions (env : Env) (cfg : Cfg) (q : Query) : Except Err Query := do
  if !cfg.applyPermissions then return q
  let ptable := cfg.permissionTable
  let q :=
    if cfg.permissionDoctype != cfg.doctype then
      q.innerJoin ptable
        (.binop .eq (.field cfg.table "parent") (.field ptable "name"))
    else q
  let rp := env.getRolePermissions cfg.permissionDoctype cfg.user
  if !(rp.read || rp.select) then do
    let sharedDocs := env.getShared cfg.permissionDoctype cfg.user
    if sharedDocs.isEmpty then throw .permissionError
    return q.where_
      (.binop .inOp (.field ptable "name") (.literal (.list (sharedDocs.map .str))))
  let conditions ←
    if requiresOwnerConstraint rp then
      pure [Criterion.binop .eq (.field ptable "owner") (.literal (.str cfg.user))]
    else do
      let userPermConditions ← getUserPermissionConditions env cfg
      pure userPermConditions
  let conditions := conditions ++ getPermissionQueryConditions env cfg
  if conditions.isEmpty then return q
  let whereCondition := Criterion.all conditions
  let sharedDocs := env.getShared cfg.permissionDoctype cfg.user
  let whereCondition :=
    if !sharedDocs.isEmpty then
      Criterion.or whereCondition
        (.binop .inOp (.field ptable "name") (.literal (.list (sharedDocs.map .str))))
    else whereCondition
  return q.where_ whereCondition

/-! ### Query assembly (`Engine.get_query`) -/

/-- `DefaultOrderBy` (`frappe/database/utils.py`). -/
def DefaultOrderBy : String := "KEEP_DEFAULT_ORDERING"

def DynField.linkFieldname : DynField → String
  | .link _ _ _ lf _ => lf
  | _ => ""

/-- Mutable engine state threaded through assembly: the query plan, alias
registries, and recorded child queries. -/
structure St where
  q : Query
  functionAliases : List String := []
  fieldAliases : List String := []
  childQueries : List (Option ChildQueryDesc) := []

/-- `Engine.validate_doctype`. -/
def validateDoctype (cfg : Cfg) : Except Err Unit :=
  if !tableNamePatternMatch cfg.doctype then .error .validationError else .ok ()

/-- `Engine.check_read_permission`. -/
def checkReadPermission (env : Env) (cfg : Cfg) : Except Err Unit :=
  if !env.hasPermission cfg.doctype "select" cfg.user cfg.parentDoctype
      && !env.hasPermission cfg.doctype "read" cfg.user cfg.parentDoctype then
    .error .permissionError
  else .ok ()

/-- `Engine._validate_and_parse_field_for_clause` (GROUP BY / ORDER BY
field grammar): digit strings pass through positionally; declared aliases
resolve bare; backtick table-qualified forms and dynamic fields resolve
with joins; otherwise only simple fieldnames are accepted. -/
def validateAndParseFieldForClause (env : Env) (cfg : Cfg) (st : St)
    (fieldName : String) : Except Err (ClauseField × St) := do
  if pyIsDigit fieldName then return (.posRef fieldName, st)
  if st.functionAliases.contains fieldName || st.fieldAliases.contains fieldName then
    return (.term (.bare fieldName), st)
  if strContains fieldName '`' then
    match backtickFieldParseMatch (pyStrip fieldName) with
    | some (tableName, fn) => return (.term (.field (docTypeTable tableName) fn), st)
    | Option.none => throw .validationError
  match DynField.parse env fieldName cfg.doctype false with
  | some dyn => do
    if cfg.applyPermissions then
      match dyn with
      | .child dt fn pdt _ _ => checkFieldPermission env cfg dt fn (some pdt)
      | .link dt fn _ lfn _ => do
        checkFieldPermission env cfg cfg.doctype lfn
        checkFieldPermission env cfg dt fn
    let q := dyn.applyJoin st.q
    return (.term dyn.fieldTerm, { st with q := q })
  | Option.none => do
    if !simpleFieldPatternMatch fieldName then throw .validationError
    if cfg.applyPermissions then
      checkFieldPermission env cfg cfg.doctype fieldName
    return (.term (.field cfg.table fieldName), st)

/-- The per-part loop of `Engine._validate_group_by` (empty parts are
skipped). -/
def validateGroupByParts (env : Env) (cfg : Cfg) :
    List String → St → Except Err (List ClauseField × St)
  | [], st => .ok ([], st)
  | part :: rest, st => do
    let fieldName := pyStrip part
    if fieldName.isEmpty then validateGroupByParts env cfg rest st
    else do
      let (cf, st) ← validateAndParseFieldForClause env cfg st fieldName
      let (cfs, st) ← validateGroupByParts env cfg rest st
      return (cf :: cfs, st)

/-- `Engine.apply_group_by` (with `_validate_group_by`). -/
def applyGroupBy (env : Env) (cfg : Cfg) (st : St) (groupBy : String) :
    Except Err St := do
  let (cfs, st) ← validateGroupByParts env cfg (strSplitOnChar ',' groupBy) st
  return { st with q := { st.q with groupbys := st.q.groupbys ++ cfs } }

/-- `str.split()` (whitespace runs, no empties). -/
def pySplitWs (s : String) : List String :=
  ((splitChars pyIsSpace s.data).map String.mk).filter (fun t => !t.isEmpty)

/-- `str.split(maxsplit=1)`. -/
def pySplitMax1 (s : String) : List String :=
  let cs := s.data.dropWhile pyIsSpace
  if cs.isEmpty then []
  else
    let tok := cs.takeWhile (fun c => !pyIsSpace c)
    let rest := (cs.dropWhile (fun c => !pyIsSpace c)).dropWhile pyIsSpace
    if rest.isEmpty then [String.mk tok] else [String.mk tok, String.mk rest]

/-- The per-declaration loop of `Engine._validate_order_by`: an optional
trailing `asc`/`desc` word sets the direction; in compat mode the default
is ascending, otherwise descending.  The source's post-parse direction
check can never fire (a set direction is always valid) and is elided. -/
def validateOrderByParts (env : Env) (cfg : Cfg) :
    List String → St → Except Err (List (ClauseField × OrderDir) × St)
  | [], st => .ok ([], st)
  | decl :: rest, st => do
    let ob := pyStrip decl
    if ob.isEmpty then validateOrderByParts env cfg rest st
    else do
      let parts := pySplitWs ob
      let lastLower := pyToLower (parts.getLastD "")
      let (direction, fieldName) :=
        if parts.length > 1 && (lastLower == "asc" || lastLower == "desc") then
          (some lastLower, String.intercalate " " parts.dropLast)
        else ((Option.none : Option String), ob)
      let orderDirection :=
        if cfg.dbQueryCompat then
          (if direction == some "desc" then OrderDir.desc else OrderDir.asc)
        else
          (if direction == some "asc" then OrderDir.asc else OrderDir.desc)
      let (cf, st) ← validateAndParseFieldForClause env cfg st fieldName
      let (cfs, st) ← validateOrderByParts env cfg rest st
      return ((cf, orderDirection) :: cfs, st)

/-- `get_doctype_sort_info` (`frappe/database/utils.py`). -/
def getDoctypeSortInfo (env : Env) (doctype : String) : String × String :=
  if CORE_DOCTYPES.contains doctype then ("creation", "DESC")
  else
    match env.getMeta doctype with
    | some meta =>
      ((if meta.sortField.isEmpty then "creation" else meta.sortField),
       (if meta.sortOrder.isEmpty then "DESC" else meta.sortOrder))
    | Option.none => ("creation", "DESC")

/-- `Engine._apply_default_order_by`. -/
def applyDefaultOrderBy (env : Env) (cfg : Cfg) (q : Query) : Query :=
  let (sortField, sortOrder) := getDoctypeSortInfo env cfg.doctype
  if strContains sortField ',' then
    (strSplitOnChar ',' sortField).foldl
      (fun q spec =>
        match pySplitMax1 (pyStrip spec) with
        | [] => q
        | fieldName :: restParts =>
          let specOrder :=
            match restParts with
            | r :: _ => pyToLower r
            | [] => pyToLower sortOrder
          let dir :=
            if cfg.dbQueryCompat then
              (if specOrder == "desc" then OrderDir.desc else OrderDir.asc)
            else (if specOrder == "asc" then OrderDir.asc else OrderDir.desc)
          { q with orderbys := q.orderbys ++ [(.term (.field cfg.table fieldName), dir)] }) q
  else
    let dir :=
      if cfg.dbQueryCompat then
        (if pyToLower sortOrder == "desc" then OrderDir.desc else OrderDir.asc)
      else (if pyToLower sortOrder == "asc" then OrderDir.asc else OrderDir.desc)
    { q with orderbys := q.orderbys ++ [(.term (.field cfg.table sortField), dir)] }

/-- `Engine.apply_order_by`. -/
def applyOrderBy (env : Env) (cfg : Cfg) (st : St) (orderBy : String) :
    Except Err St := do
  if orderBy.isEmpty || orderBy == DefaultOrderBy then
    return { st with q := applyDefaultOrderBy env cfg st.q }
  let (cfs, st) ← validateOrderByParts env cfg (strSplitOnChar ',' orderBy) st
  return { st with q := { st.q with orderbys := st.q.orderbys ++ cfs } }

/-- The alias tracked by `apply_fields` for GROUP BY / ORDER BY resolution:
aliased pypika `Field`s and aliased dynamic fields. -/
def ParsedField.trackedAlias : ParsedField → Option String
  | .term t =>
    match t with
    | .aliased inner a => if inner.isFieldInstance then some a else Option.none
    | _ => Option.none
  | .dynamic d => d.aliasName
  | .childQuery _ => Option.none

/-- `Engine.apply_field_permissions` body loop: filter the parsed field
list down to the permitted set;  `*` expands to the permitted columns. -/
def fieldPermLoop (env : Env) (cfg : Cfg) (permSet : List String)
    (parentPermType : String) : List ParsedField → Except Err (List ParsedField)
  | [] => .ok []
  | f :: rest => do
    let keep ←
      match f with
      | .dynamic (.child dt fn _ _ _) =>
        if parentPermType == "select" then pure []
        else
          let permittedChild :=
            env.getPermittedFields dt (some cfg.doctype) (getPermissionType env cfg dt) cfg.user
          if permittedChild.contains fn then pure [f] else pure []
      | .dynamic (.link dt fn _ lfn _) =>
        if permSet.contains lfn then
          let hasTargetPerm := env.hasPermission dt "select" cfg.user Option.none
            || env.hasPermission dt "read" cfg.user Option.none
          if hasTargetPerm then
            let permittedTarget :=
              env.getPermittedFields dt Option.none (getPermissionType env cfg dt) cfg.user
            if permittedTarget.contains fn then pure [f] else pure []
          else pure []
        else pure []
      | .childQuery cq =>
        if parentPermType == "select" then pure []
        else
          match cq with
          | Option.none => throw .attributeError   -- degenerate ChildQuery lacks attributes
          | some c =>
            let permittedChild := env.getPermittedFields c.doctype (some c.parentDoctype)
              (getPermissionType env cfg c.doctype) cfg.user
            let newFields := c.fields.filter
              (fun fo =>
                match fo with
                | .str s => permittedChild.contains s
                | _ => false)
            if newFields.isEmpty then pure []
            else pure [ParsedField.childQuery (some { c with fields := newFields })]
      | .term t =>
        if t.isFieldInstance then
          if t.nameOf == "*" then do
            let (expanded, _) ← parseFields env cfg [] (.list (permSet.map .str))
            pure expanded
          else if OPTIONAL_FIELDS.contains t.nameOf || permSet.contains t.nameOf then
            pure [f]
          else pure []
        else pure [f]   -- any other pypika Term passes through
    let restDone ← fieldPermLoop env cfg permSet parentPermType rest
    return keep ++ restDone

/-- `Engine.apply_field_permissions`.  The dynamic-child branch of the
source looks up permitted fields for `(field.doctype, field.parent_doctype)`;
for fields parsed against this engine the parent doctype is the engine's
doctype. -/
def applyFieldPermissions (env : Env) (cfg : Cfg) (flds : List ParsedField) :
    Except Err (List ParsedField) := do
  let parentPermissionType := getPermissionType env cfg cfg.doctype
  let permittedFieldsSet :=
    env.getPermittedFields cfg.doctype cfg.parentDoctype parentPermissionType cfg.user
  fieldPermLoop env cfg permittedFieldsSet parentPermissionType flds

/-- The select loop at the end of `apply_fields`. -/
def applySelectLoop (q : Query) :
    List ParsedField → Query × List (Option ChildQueryDesc)
  | [] => (q, [])
  | f :: rest =>
    match f with
    | .dynamic d =>
      applySelectLoop (d.applySelect q) rest
    | .childQuery cq =>
      let (q, cqs) := applySelectLoop q rest
      (q, cq :: cqs)
    | .term t => applySelectLoop (q.select t) rest

/-- `Engine.apply_fields`: parse, track aliases, filter by permissions,
default to the primary key, then select. -/
def applyFields (env : Env) (cfg : Cfg) (st : St) (fields : FObj) : Except Err St := do
  let (flds, fa) ← parseFields env cfg st.functionAliases fields
  let fieldAliases := st.fieldAliases ++
    flds.filterMap
      (fun f =>
        match f.trackedAlias with
        | some a => if a.isEmpty then Option.none else some a
        | Option.none => Option.none)
  let flds ←
    if cfg.applyPermissions then applyFieldPermissions env cfg flds
    else pure flds
  let flds :=
    if flds.isEmpty then [ParsedField.term (.field cfg.table "name")] else flds
  let (q, cqs) := applySelectLoop st.q flds
  return { q := q, functionAliases := fa, fieldAliases := fieldAliases, childQueries := cqs }

/-- Arguments of `Engine.get_query` that concern assembly. -/
structure GetQueryArgs where
  fields : FObj := .none
  filters : FObj := .none
  orderBy : Option String := Option.none
  groupBy : Option String := Option.none
  qlimit : FObj := .none
  qoffset : FObj := .none
  distinct : Bool := false
  forUpdate : Bool := false
  updateQ : Bool := false
  intoQ : Bool := false
  deleteQ : Bool := false
  orFilters : FObj := .none

/-- `Engine.get_query`: validate the doctype, check read permission, apply
fields, filters and OR filters, validate limit/offset, apply
distinct/locking, group-by and order-by (the latter skipped with a warning
on Postgres selects with DISTINCT/GROUP BY), and append permission
conditions.  String tables only; pre-built `Table` objects are outside the
embedding, and the final immutability flag and masked-field metadata do not
affect the plan. -/
def getQuery (env : Env) (cfg : Cfg) (args : GetQueryArgs) : Except Err Query := do
  validateDoctype cfg
  if cfg.applyPermissions then checkReadPermission env cfg
  let st0 : St := { q := { baseTable := cfg.table } }
  let (st, isSelect) ←
    if args.updateQ then pure ({ st0 with q := { st0.q with kind := .update } }, false)
    else if args.intoQ then pure ({ st0 with q := { st0.q with kind := .intoQ } }, false)
    else if args.deleteQ then pure ({ st0 with q := { st0.q with kind := .delete } }, false)
    else do
      let st ← applyFields env cfg st0 args.fields
      pure (st, true)
  let (q, _) ← applyFilters env cfg st.q args.filters false
  let q ← applyOrFilters env cfg q args.orFilters
  let q ←
    if args.qlimit.truthy then
      if !args.qlimit.isInt || args.qlimit.intVal < 0 then throw .typeError
      else pure { q with qlimit := some args.qlimit.intVal }
    else pure q
  let q ←
    if args.qoffset.truthy then
      if !args.qoffset.isInt || args.qoffset.intVal < 0 then throw .typeError
      else pure { q with qoffset := some args.qoffset.intVal }
    else pure q
  let q := if args.distinct then { q with isDistinct := true } else q
  let q := if args.forUpdate then { q with forUpdate := true } else q
  let st := { st with q := q }
  let groupByTruthy :=
    match args.groupBy with
    | some g => !g.isEmpty
    | Option.none => false
  let st ←
    match args.groupBy with
    | some g => if !g.isEmpty then applyGroupBy env cfg st g else pure st
    | Option.none => pure st
  let st ←
    match args.orderBy with
    | some o =>
      if !o.isEmpty then
        if !(cfg.backend == .postgres && isSelect && (args.distinct || groupByTruthy)) then
          applyOrderBy env cfg st o
        else pure st   -- ORDER BY ignored with a warning on Postgres
      else pure st
    | Option.none => pure st
  addPermissionConditions env cfg st.q

/-! ## Concrete fixtures used by witnesses and counterexamples -/

def metaNote : Meta :=
  { fields := [⟨"content", "Data", "", false, false⟩, ⟨"status", "Data", "", false, false⟩] }

def envNote : Env :=
  { getMeta := fun dt => if dt == "Note" then some metaNote else Option.none }

def cfgNote : Cfg := { doctype := "Note" }

def qNote : Query := { baseTable := "tabNote" }

/-! ## Claims -/

theorem isJoined_leftJoin (q : Query) (t : String) (c : Criterion) :
    (q.leftJoin t c).isJoined t = true := by
  simp [Query.leftJoin, Query.isJoined]

theorem applyJoin_of_isJoined (d : DynField) (q : Query)
    (hj : q.isJoined d.tableName = true) : d.applyJoin q = q := by
  cases d <;>
    simp only [DynField.applyJoin, DynField.tableName, DynField.doctype] at hj ⊢ <;>
    simp [hj]

theorem applyJoin_isJoined (d : DynField) (q : Query) :
    (d.applyJoin q).isJoined d.tableName = true := by
  by_cases hj : q.isJoined d.tableName
  · rw [applyJoin_of_isJoined d q hj]; exact hj
  · have hj' : q.isJoined d.tableName = false := by simpa using hj
    cases d <;>
      simp only [DynField.applyJoin, DynField.tableName, DynField.doctype] at hj' ⊢ <;>
      simp [hj', isJoined_leftJoin]

/-- **C7.** For every dynamic field (link-table or child-table reference),
`apply_join` on a plan that already contains that join leaves the join list
unchanged; applying the join twice is the same as applying it once, and on
a plan without the join it adds exactly one JOIN clause. -/
theorem c7_apply_join_idempotent (d : DynField) (q : Query) :
    (q.isJoined d.tableName = true → d.applyJoin q = q) ∧
    d.applyJoin (d.applyJoin q) = d.applyJoin q ∧
    (q.isJoined d.tableName = false →
      (d.applyJoin (d.applyJoin q)).joins.length = q.joins.length + 1) := by
  refine ⟨fun hj => applyJoin_of_isJoined d q hj, ?_, ?_⟩
  · exact applyJoin_of_isJoined d (d.applyJoin q) (applyJoin_isJoined d q)
  · intro hj
    rw [applyJoin_of_isJoined d (d.applyJoin q) (applyJoin_isJoined d q)]
    cases d <;>
      simp only [DynField.applyJoin, DynField.tableName, DynField.doctype] at hj ⊢ <;>
      simp [hj, Query.leftJoin]

/-- **C9 counterexample.** The claim states that any base-table name
containing a character outside alphanumerics, spaces and hyphens is
rejected; but `validate_doctype` accepts `__Auth`, whose underscores lie
outside that set (the pattern is `[\w -]*`, and `\w` includes the
underscore — the source comments that `__Auth`-style names are deliberately
allowed). -/
theorem c9_counterexample :
    validateDoctype { doctype := "__Auth" } = .ok () := rfl

/-- **C9 (amended).** A string base-table name is validated against the
allow-list of alphanumerics, underscores, spaces and hyphens (Python also
accepts the empty name and one trailing newline through the `$` anchor);
any other name makes `get_query` fail with a ValidationError before any
query is built. -/
theorem c9_table_name_allow_list (env : Env) (cfg : Cfg) (args : GetQueryArgs) :
    (validateDoctype cfg = .ok () ↔
      (cfg.doctype.data.all
          (fun c => c.isAlpha || c.isDigit || c == '_' || c == ' ' || c == '-') = true ∨
        (cfg.doctype.data.getLast? = some '\n' ∧
          cfg.doctype.data.dropLast.all
            (fun c => c.isAlpha || c.isDigit || c == '_' || c == ' ' || c == '-') = true))) ∧
    (validateDoctype cfg ≠ .ok () → getQuery env cfg args = .error .validationError) := by
  have hfn : tableNameChar =
      (fun c => c.isAlpha || c.isDigit || c == '_' || c == ' ' || c == '-') := by
    funext c
    simp [tableNameChar, isWordChar, Bool.or_assoc]
  constructor
  · unfold validateDoctype tableNamePatternMatch reFullMatchStar
    rw [hfn]
    cases hl : cfg.doctype.data.getLast? with
    | none =>
      by_cases hall : cfg.doctype.data.all
          (fun c => c.isAlpha || c.isDigit || c == '_' || c == ' ' || c == '-') <;>
        simp [hall, hl]
    | some c =>
      by_cases hall : cfg.doctype.data.all
          (fun c => c.isAlpha || c.isDigit || c == '_' || c == ' ' || c == '-')
      · simp [hall, hl]
      · by_cases hc : c = '\n'
        · subst hc
          by_cases hrest : cfg.doctype.data.dropLast.all
              (fun c => c.isAlpha || c.isDigit || c == '_' || c == ' ' || c == '-') <;>
            simp [hall, hl, hrest]
        · simp [hall, hl, hc]
  · intro hne
    have hfail : tableNamePatternMatch cfg.doctype = false := by
      by_cases hc : tableNamePatternMatch cfg.doctype
      · exact absurd (by simp [validateDoctype, hc]) hne
      · simpa using hc
    unfold getQuery
    simp [validateDoctype, hfail, Bind.bind, Except.bind]

/-- Witness for the C9 amended theorem: a name with a semicolon is
rejected by `get_query` with a ValidationError. -/
theorem c9_table_name_allow_list_witness :
    getQuery envNote { doctype := "Note; DROP TABLE x" } {} = .error .validationError :=
  (c9_table_name_allow_list envNote { doctype := "Note; DROP TABLE x" } {}).2
    (by intro h; exact absurd h (by simp [validateDoctype, tableNamePatternMatch]; decide))

/-- **C10.** Passing `limit=0` or `offset=0` to `get_query` is exactly the
same as omitting the argument (`if limit:` / `if offset:` skip falsy
values): no LIMIT/OFFSET clause is added and no error is raised; in the
plain assembly scenario the produced plan selects the primary key with no
limit or offset set. -/
theorem c10_zero_limit_offset (env : Env) (cfg : Cfg) (args : GetQueryArgs) :
    getQuery env cfg { args with qlimit := .int 0, qoffset := .int 0 } =
      getQuery env cfg { args with qlimit := .none, qoffset := .none } ∧
    (validateDoctype cfg = .ok () → cfg.applyPermissions = false →
      getQuery env cfg { qlimit := .int 0, qoffset := .int 0 } =
        .ok { baseTable := cfg.table, selects := [.field cfg.table "name"] }) := by
  constructor
  · rfl
  · intro hv hp
    unfold getQuery
    rw [hv]
    simp [hp, applyFields, parseFields, FObj.truthy, applyFilters, applyOrFilters,
      applySelectLoop, Query.select, addPermissionConditions, Bind.bind, Except.bind,
      pure, Except.pure, FObj.isNone]

/-- Witness for C10: with the `Note` fixture, zero limit and offset
produce the default plan with no LIMIT/OFFSET and no error. -/
theorem c10_zero_limit_offset_witness :
    getQuery envNote cfgNote { qlimit := .int 0, qoffset := .int 0 } =
      .ok { baseTable := cfgNote.table, selects := [.field cfgNote.table "name"] } :=
  (c10_zero_limit_offset envNote cfgNote {}).2 rfl rfl

/-- **C8 counterexample.** The claim says every limit/offset that is not a
non-negative integer — "e.g. ... a float" — fails with TypeError; but
`limit=0.0` (a falsy float) is skipped silently by the `if limit:` guard
and the call succeeds. -/
theorem c8_counterexample :
    (getQuery envNote cfgNote { qlimit := .float 0 }).isOk = true := by
  unfold getQuery
  rw [show validateDoctype cfgNote = .ok () from rfl]
  simp [cfgNote, applyFields, parseFields, applyFilters, applyOrFilters,
    applySelectLoop, Query.select, addPermissionConditions, Bind.bind, Except.bind,
    pure, Except.pure, Except.isOk, Except.toBool,
    show FObj.none.truthy = false from rfl,
    show FObj.truthy (.float 0) = false from rfl]

/-- **C8 (amended).** Every TRUTHY limit/offset argument that is not a
non-negative integer fails eagerly with TypeError during assembly; falsy
arguments (`0`, `0.0`, `""`, `False`, `None`) are ignored like an omitted
argument.  (The plain assembly scenario: no fields/filters, permissions not
enforced.) -/
theorem c8_limit_offset_typeerror (env : Env) (cfg : Cfg) (limit offset : FObj)
    (hv : validateDoctype cfg = .ok ()) (hp : cfg.applyPermissions = false) :
    (limit.truthy = true → (limit.isInt = false ∨ limit.intVal < 0) →
      getQuery env cfg { qlimit := limit, qoffset := offset } = .error .typeError) ∧
    ((limit.truthy = false ∨ (limit.isInt = true ∧ 0 ≤ limit.intVal)) →
      offset.truthy = true → (offset.isInt = false ∨ offset.intVal < 0) →
      getQuery env cfg { qlimit := limit, qoffset := offset } = .error .typeError) := by
  constructor
  · intro ht hbad
    unfold getQuery
    rw [hv]
    have hcond : (!limit.isInt || decide (limit.intVal < 0)) = true := by
      rcases hbad with h | h
      · simp [h]
      · simp [h]
    simp [hp, applyFields, parseFields, applyFilters, applyOrFilters,
      applySelectLoop, Query.select, Bind.bind, Except.bind, pure, Except.pure, show FObj.none.truthy = false from rfl,
      ht, hcond, throw, throwThe, MonadExceptOf.throw]
  · intro hok ht hbad
    unfold getQuery
    rw [hv]
    have hcond : (!offset.isInt || decide (offset.intVal < 0)) = true := by
      rcases hbad with h | h
      · simp [h]
      · simp [h]
    rcases hok with h | ⟨h1, h2⟩
    · simp [hp, applyFields, parseFields, applyFilters, applyOrFilters,
        applySelectLoop, Query.select, Bind.bind, Except.bind, pure, Except.pure, show FObj.none.truthy = false from rfl,
        h, ht, hcond, throw, throwThe, MonadExceptOf.throw]
    · have hgood : (!limit.isInt || decide (limit.intVal < 0)) = false := by
        simp [h1]
        omega
      simp [hp, applyFields, parseFields, applyFilters, applyOrFilters,
        applySelectLoop, Query.select, Bind.bind, Except.bind, pure, Except.pure, show FObj.none.truthy = false from rfl,
        ht, hcond, hgood, throw, throwThe, MonadExceptOf.throw]

/-- Witness for the C8 amended theorem: a float limit `3.0` (truthy, not an
int) and a negative integer offset each raise TypeError. -/
theorem c8_limit_offset_typeerror_witness :
    getQuery envNote cfgNote { qlimit := .float 3 } = .error .typeError ∧
    getQuery envNote cfgNote { qoffset := .int (-3) } = .error .typeError :=
  ⟨(c8_limit_offset_typeerror envNote cfgNote (.float 3) .none rfl rfl).1
      (by decide) (Or.inl (by decide)),
   (c8_limit_offset_typeerror envNote cfgNote .none (.int (-3)) rfl rfl).2
      (Or.inl (by decide)) (by decide) (Or.inr (by decide))⟩

/-- **C1 counterexample.** The claim says a quoted literal whose content
contains `;`, `--` and SQL keywords makes `_validate_string_argument`
raise ValidationError; instead the function returns the quote-stripped
content as a literal value (escaping is delegated to pypika's
`wrap_constant`, as the source comments). -/
theorem c1_counterexample :
    validateStringArgument envNote cfgNote "\x27a; DROP TABLE users--\x27" (some "CONCAT") =
      .ok (.raw (.str "a; DROP TABLE users--")) := rfl

/-- **C1 (amended).** Every quoted-literal string argument (after
stripping: length at least 2, first character a single or double quote,
last character equal to the first) is returned quote-stripped as a raw
literal value — no content scan for `;`, `--`, `/*` or SQL keywords takes
place and no error is raised. -/
theorem c1_quoted_literal_passthrough (env : Env) (cfg : Cfg) (fn : Option String)
    (s : String)
    (h1 : (pyStrip s).isEmpty = false)
    (h2 : ((pyStrip s) == "*") = false)
    (h3 : 2 ≤ (pyStrip s).length)
    (h4 : (pyStrip s).data.head?.getD ' ' = '\x27' ∨ (pyStrip s).data.head?.getD ' ' = '"')
    (h5 : (pyStrip s).data.getLast?.getD ' ' = (pyStrip s).data.head?.getD ' ') :
    validateStringArgument env cfg s fn =
      .ok (.raw (.str (String.mk (pyStrip s).data.tail.dropLast))) := by
  unfold validateStringArgument
  rcases h4 with hc | hc <;>
    simp [h1, h2, h3, hc, h5, pure, Except.pure]

/-- Witness for the C1 amended theorem at a concrete quoted literal
containing `;`, `--`, and the DROP/SELECT keywords. -/
theorem c1_quoted_literal_passthrough_witness :
    validateStringArgument envNote cfgNote
        "\x27Open; SELECT * FROM x--\x27" (some "CONCAT") =
      .ok (.raw (.str
        (String.mk (pyStrip "\x27Open; SELECT * FROM x--\x27").data.tail.dropLast))) :=
  c1_quoted_literal_passthrough envNote cfgNote (some "CONCAT")
    "\x27Open; SELECT * FROM x--\x27"
    (by decide) (by decide) (by decide) (by decide) (by decide)

def cfgNotePG : Cfg := { doctype := "Note", backend := .postgres }

/-- **C3 counterexample.** The claim says `not like` is mapped to
`NOT ILIKE` on Postgres; instead the produced condition keeps the
case-sensitive `NOT LIKE` operator (only `like` is special-cased at lines
594-599). -/
theorem c3_counterexample :
    buildCriterionForSimpleFilter envNote cfgNotePG qNote
        (.str "status") (.str "x%") (.str "not like") Option.none =
      .ok (.binop .notLike (.field "tabNote" "status") (.literal (.str "x%")), qNote) := rfl

/-- **C3 (amended).** On the Postgres backend only the `like` operator
(any letter case) is replaced by the case-insensitive `ILIKE`; `not like`
is left as the case-sensitive `NOT LIKE` on every backend; on non-Postgres
backends every operator resolves to its `OPERATOR_MAP` entry unchanged. -/
theorem c3_like_ilike_mapping (cfg : Cfg) (op : String) :
    (cfg.backend = .postgres → pyToLower op = "like" →
      selectOperatorFn cfg op = .ok .ilike) ∧
    (pyToLower op = "not like" → selectOperatorFn cfg op = .ok .notLike) ∧
    (cfg.backend ≠ .postgres → ∀ k, OPERATOR_MAP (pyToLower op) = some k →
      selectOperatorFn cfg op = .ok k) := by
  refine ⟨?_, ?_, ?_⟩
  · intro hb hl
    simp [selectOperatorFn, hb, hl, pure, Except.pure]
  · intro hl
    simp [selectOperatorFn, hl, OPERATOR_MAP, pure, Except.pure]
  · intro hb k hk
    have hb' : (cfg.backend == Backend.postgres) = false := by
      cases h : cfg.backend <;> simp_all
    simp [selectOperatorFn, hb', hk, pure, Except.pure]

/-- Witness for the C3 amended theorem: on Postgres `LIKE` becomes
`ILIKE` while `NOT LIKE` stays `NOT LIKE`; on MariaDB `like` stays
`like`. -/
theorem c3_like_ilike_mapping_witness :
    selectOperatorFn cfgNotePG "LIKE" = .ok .ilike ∧
    selectOperatorFn cfgNotePG "NOT LIKE" = .ok .notLike ∧
    selectOperatorFn cfgNote "like" = .ok .like :=
  ⟨(c3_like_ilike_mapping cfgNotePG "LIKE").1 rfl (by decide),
   (c3_like_ilike_mapping cfgNotePG "NOT LIKE").2.1 (by decide),
   (c3_like_ilike_mapping cfgNote "like").2.2 (by decide) .like (by decide)⟩

/-- C5: for every field name `f` and filter value `v` (a scalar
`str | int | bool`), applying the dict filter `{f: v}` builds the same
WHERE condition as the list filter `[[f, "=", v]]`: both paths reduce to
the same `build_criterion_for_simple_filter` call with operator `"="` and
no explicit doctype, AND-ed onto the query. -/
theorem c5_dict_eq_list_filter (env : Env) (cfg : Cfg) (q : Query) (f : String)
    (v : FObj) (hv : v.isFilterValue = true) :
    applyFilters env cfg q (.dict [(f, v)]) false =
      applyFilters env cfg q (.list [.list [.str f, .str "=", v]]) false := by
  have hnotlt : v.isListOrTuple = false := by
    cases v <;> simp_all [FObj.isFilterValue, FObj.isListOrTuple]
  have h5 : (FObj.list [FObj.str f, FObj.str "=", v]).isFilterValue = false := rfl
  rw [applyFilters, applyFilters]
  rw [applyFilterList]
  rw [condToCrit]
  simp only [List.isEmpty_cons, List.all_cons, h5, Bool.false_and,
    isSingleGroup, List.getD, List.get?, Option.getD_some,
    show (FObj.list [FObj.str f, FObj.str "=", v]).isListOrTuple = true from rfl,
    show (FObj.list [FObj.str f, FObj.str "=", v]).elems = [FObj.str f, FObj.str "=", v] from rfl,
    show (FObj.str "=").isStr = true from rfl,
    show (FObj.str f).isListOrTuple = false from rfl,
    show OPERATOR_MAP (match (FObj.str "=") with | .str o => pyToLower o | _ => "") = some .eq from rfl,
    applyDictFilters, hnotlt, applyFilterSimple,
    Bool.true_and, Bool.and_true, Bool.and_false, Bool.false_or, Bool.or_false,
    Bool.not_true, if_true, if_false,
    Bind.bind, Except.bind, pure, Except.pure]
  simp only [Bool.false_eq_true, if_false, List.length_cons, List.length_nil,
    Nat.reduceAdd, beq_self_eq_true, ge_iff_le, Nat.reduceLeDiff, decide_True,
    Bool.and_self, if_true]
  cases hb : buildCriterionForSimpleFilter env cfg q (.str f) v (.str "=") Option.none <;>
    simp [hb]

/-- Witness for C5 at a concrete field and string value. -/
theorem c5_dict_eq_list_filter_witness :
    (FObj.str "Open").isFilterValue = true ∧
      applyFilters envNote cfgNote qNote (.dict [("status", .str "Open")]) false =
        applyFilters envNote cfgNote qNote
          (.list [.list [.str "status", .str "=", .str "Open"]]) false :=
  ⟨rfl, c5_dict_eq_list_filter envNote cfgNote qNote "status" (.str "Open") rfl⟩

/-- C6: in `_parse_nested_filters`, a first element that is not a
list/tuple raises `ValidationError`; an operator-position element other
than `and`/`or` (case-insensitive) raises `ValidationError`; a trailing
operator with no following condition raises `ValidationError`; and an
accepted `and`/`or` in any letter case combines the parsed next condition
with the running criterion by boolean AND resp. OR. -/
theorem c6_nested_filter_grammar (env : Env) (cfg : Cfg) (cur nc : Criterion)
    (q q' : Query) (x nextCond : FObj) (xs rest : List FObj) (s sOk : String) :
    (x.isListOrTuple = false →
      parseNestedFilters env cfg (.list (x :: xs)) q = .error .validationError) ∧
    (pyToLower s ≠ "and" → pyToLower s ≠ "or" →
      nestedGo env cfg cur q (.str s :: rest) = .error .validationError) ∧
    ((pyToLower sOk = "and" ∨ pyToLower sOk = "or") →
      nestedGo env cfg cur q [.str sOk] = .error .validationError) ∧
    (pyToLower sOk = "and" → nextCond.isListOrTuple = true →
      condToCrit env cfg nextCond q = .ok (nc, q') →
      nestedGo env cfg cur q (.str sOk :: nextCond :: rest) =
        nestedGo env cfg (Criterion.and cur nc) q' rest) ∧
    (pyToLower sOk = "or" → nextCond.isListOrTuple = true →
      condToCrit env cfg nextCond q = .ok (nc, q') →
      nestedGo env cfg cur q (.str sOk :: nextCond :: rest) =
        nestedGo env cfg (Criterion.or cur nc) q' rest) := by
  refine ⟨fun h1 => ?_, fun h2a h2b => ?_, fun h3 => ?_, fun h4a h4b h4c => ?_,
    fun h5a h5b h5c => ?_⟩
  · rw [parseNestedFilters, parseNestedCore]
    simp [h1, throw, throwThe, MonadExceptOf.throw, Bind.bind, Except.bind, Functor.map, Except.map, pure, Except.pure]
  · rw [nestedGo]
    simp [h2a, h2b, throw, throwThe, MonadExceptOf.throw, Bind.bind, Except.bind, Functor.map, Except.map, pure, Except.pure]
  · rw [nestedGo]
    rcases h3 with h | h <;> simp [h, throw, throwThe, MonadExceptOf.throw, Bind.bind, Except.bind, Functor.map, Except.map, pure, Except.pure]
  · rw [nestedGo]
    simp [h4a, h4b, h4c, throw, throwThe, MonadExceptOf.throw, Bind.bind, Except.bind, Functor.map, Except.map, pure, Except.pure]
  · have : pyToLower sOk ≠ "and" := by rw [h5a]; decide
    rw [nestedGo]
    simp [h5a, h5b, h5c, this, throw, throwThe, MonadExceptOf.throw, Bind.bind, Except.bind, Functor.map, Except.map, pure, Except.pure]

/-- Witness for C6: a non-list first element, the operator `xor`, a
trailing `AND`, and accepted upper-case `AND`/`OR` combinations. -/
theorem c6_nested_filter_grammar_witness :
    parseNestedFilters envNote cfgNote (.list [.int 5]) qNote = .error .validationError ∧
    nestedGo envNote cfgNote Criterion.empty qNote [.str "xor"] = .error .validationError ∧
    nestedGo envNote cfgNote Criterion.empty qNote [.str "AND"] = .error .validationError ∧
    nestedGo envNote cfgNote Criterion.empty qNote
        [.str "AND", .list [.str "name", .str "=", .str "x"]] =
      nestedGo envNote cfgNote
        (Criterion.and Criterion.empty
          (.binop .eq (.field "tabNote" "name") (.literal (.str "x")))) qNote [] ∧
    nestedGo envNote cfgNote Criterion.empty qNote
        [.str "OR", .list [.str "name", .str "=", .str "x"]] =
      nestedGo envNote cfgNote
        (Criterion.or Criterion.empty
          (.binop .eq (.field "tabNote" "name") (.literal (.str "x")))) qNote [] := by
  have h := c6_nested_filter_grammar envNote cfgNote Criterion.empty
    (.binop .eq (.field "tabNote" "name") (.literal (.str "x"))) qNote qNote
    (.int 5) (.list [.str "name", .str "=", .str "x"]) [] [] "xor" "AND"
  have h2 := c6_nested_filter_grammar envNote cfgNote Criterion.empty
    (.binop .eq (.field "tabNote" "name") (.literal (.str "x"))) qNote qNote
    (.int 5) (.list [.str "name", .str "=", .str "x"]) [] [] "xor" "OR"
  have hc : condToCrit envNote cfgNote (.list [.str "name", .str "=", .str "x"]) qNote =
      .ok (.binop .eq (.field "tabNote" "name") (.literal (.str "x")), qNote) := by
    rw [condToCrit]; rfl
  exact ⟨h.1 rfl, h.2.1 (by decide) (by decide), h.2.2.1 (Or.inl rfl),
    h.2.2.2.1 rfl rfl hc, h2.2.2.2.2 rfl rfl hc⟩

/-- C2 counterexample: a dict entry whose single non-`as` key is the
uppercase `DROP` outside both allow-lists, but whose `as` alias value is a
list, raises `AttributeError` (the child-query loop iterates the `as` pair
first and dereferences missing-field metadata), not `ValidationError`. -/
theorem c2_counterexample :
    parseFields envNote cfgNote []
        (.list [.dict [("as", .list [.str "x"]), ("DROP", .str "TABLE")]]) =
      .error .attributeError := rfl

/-- C2: a field-list dict entry whose first key is uppercase and not in the
function/operator allow-lists, and whose single non-`as` key is that same
key, fails field parsing with `ValidationError`; in particular
`{"DROP": "TABLE"}` raises `ValidationError`. -/
theorem c2_field_dict_allow_list (env : Env) (cfg : Cfg) (fa : List String)
    (K : String) (v : FObj) (rest : List (String × FObj))
    (hup : pyIsUpper K = true)
    (hkeys : (((K, v) :: rest).filter (fun kv => pyToLower kv.1 != "as")).map
        (fun kv => kv.1) = [K])
    (hf : FUNCTION_MAPPING_KEYS.contains K = false)
    (ho : OPERATOR_MAPPING_KEYS.contains K = false) :
    parseFields env cfg fa (.list [.dict ((K, v) :: rest)]) =
      .error .validationError := by
  have hfd : isFunctionDict ((K, v) :: rest) = false := by
    have hf2 : K ∉ FUNCTION_MAPPING_KEYS := by
      simp only [List.contains_eq_any_beq] at hf
      simp at hf
      exact fun hm => hf K hm rfl
    simp [isFunctionDict, hkeys, hf2]
  have hod : isOperatorDict ((K, v) :: rest) = false := by
    have ho2 : K ∉ OPERATOR_MAPPING_KEYS := by
      simp only [List.contains_eq_any_beq] at ho
      simp at ho
      exact fun hm => ho K hm rfl
    simp [isOperatorDict, hkeys, ho2]
  rw [parseFields]
  simp [initialFieldList, initialFieldList.flattenItems, parseFieldItems,
    parseSingleFieldItem, hfd, hod, childQueryLoop, hup,
    show (FObj.list [FObj.dict ((K, v) :: rest)]).truthy = true from rfl,
    throw, throwThe, MonadExceptOf.throw, Bind.bind, Except.bind,
    Functor.map, Except.map, pure, Except.pure]

/-- Witness for C2 at the dict `{"DROP": "TABLE"}`. -/
theorem c2_field_dict_allow_list_witness :
    pyIsUpper "DROP" = true ∧
      parseFields envNote cfgNote [] (.list [.dict [("DROP", .str "TABLE")]]) =
        .error .validationError :=
  ⟨by decide,
   c2_field_dict_allow_list envNote cfgNote [] "DROP" (.str "TABLE") []
     (by decide) rfl (by decide) (by decide)⟩

/-- C4: with permissions applied, the same permission doctype, granted
read/select, and no shared documents: if every select/read the user holds
is `if_owner`-gated then the permission WHERE condition is exactly
`owner = user` plus the hook conditions and the user-permission conditions
are never added; and if the user holds select or read outside `if_owner`,
no owner constraint is required and the conditions are exactly the
user-permission conditions plus the hook conditions. -/
theorem c4_if_owner_conditions (env : Env) (cfg : Cfg) (q : Query)
    (rp : RolePerms) (upc : List Criterion)
    (hrp : env.getRolePermissions cfg.permissionDoctype cfg.user = rp)
    (happ : cfg.applyPermissions = true)
    (hsame : cfg.permissionDoctype = cfg.doctype)
    (hread : (rp.read || rp.select) = true)
    (hshared : env.getShared cfg.permissionDoctype cfg.user = []) :
    (requiresOwnerConstraint rp = true →
      addPermissionConditions env cfg q =
        .ok (q.where_ (Criterion.all
          (Criterion.binop .eq (.field cfg.permissionTable "owner")
              (.literal (.str cfg.user)) :: getPermissionQueryConditions env cfg)))) ∧
    ((rp.select = true ∧ rp.ifOwner.contains "select" = false) ∨
        (rp.read = true ∧ rp.ifOwner.contains "read" = false) →
      requiresOwnerConstraint rp = false ∧
      (getUserPermissionConditions env cfg = .ok upc →
        addPermissionConditions env cfg q =
          if (upc ++ getPermissionQueryConditions env cfg).isEmpty then .ok q
          else .ok (q.where_ (Criterion.all
            (upc ++ getPermissionQueryConditions env cfg))))) := by
  rw [hsame] at hrp hshared
  constructor
  · intro hro
    rw [addPermissionConditions]
    simp [happ, hsame, hrp, hread, hro, hshared,
      throw, throwThe, MonadExceptOf.throw, Bind.bind, Except.bind,
      Functor.map, Except.map, pure, Except.pure]
  · intro hB
    have hro : requiresOwnerConstraint rp = false := by
      unfold requiresOwnerConstraint
      rcases hB with ⟨h1, h2⟩ | ⟨h1, h2⟩ <;> split_ifs <;> simp_all
    refine ⟨hro, fun hupc => ?_⟩
    rw [addPermissionConditions]
    simp [happ, hsame, hrp, hread, hro, hshared, hupc,
      throw, throwThe, MonadExceptOf.throw, Bind.bind, Except.bind,
      Functor.map, Except.map, pure, Except.pure]

/-- A permission oracle granting `read` only through `if_owner`. -/
def envOwnerOnly : Env :=
  { getMeta := fun dt => if dt == "Note" then some metaNote else Option.none,
    getRolePermissions := fun _ _ =>
      { read := true, hasIfOwnerEnabled := true, ifOwner := ["read"] } }

/-- A permission oracle granting plain `read` with no `if_owner` gating. -/
def envPlainRead : Env :=
  { getMeta := fun dt => if dt == "Note" then some metaNote else Option.none,
    getRolePermissions := fun _ _ => { read := true } }

/-- `cfgNote` with permissions enforced. -/
def cfgPerm : Cfg := { doctype := "Note", applyPermissions := true }

/-- Witness for C4: an `if_owner`-gated reader gets exactly the owner
condition; a plain reader gets no owner condition (and, with no user
permissions or hooks, an unchanged plan). -/
theorem c4_if_owner_conditions_witness :
    addPermissionConditions envOwnerOnly cfgPerm qNote =
      .ok (qNote.where_ (Criterion.all
        (Criterion.binop .eq (.field cfgPerm.permissionTable "owner")
            (.literal (.str cfgPerm.user)) ::
          getPermissionQueryConditions envOwnerOnly cfgPerm))) ∧
    requiresOwnerConstraint
        (envPlainRead.getRolePermissions cfgPerm.permissionDoctype cfgPerm.user) = false ∧
    addPermissionConditions envPlainRead cfgPerm qNote = .ok qNote := by
  have hA := (c4_if_owner_conditions envOwnerOnly cfgPerm qNote
    { read := true, hasIfOwnerEnabled := true, ifOwner := ["read"] } []
    rfl rfl rfl rfl rfl).1 rfl
  have hB := (c4_if_owner_conditions envPlainRead cfgPerm qNote { read := true } []
    rfl rfl rfl rfl rfl).2 (Or.inr ⟨rfl, rfl⟩)
  exact ⟨hA, hB.1, (hB.2 rfl).trans rfl⟩

/-- Witness for C7 at a concrete link field and plan. -/
theorem c7_apply_join_idempotent_witness :
    (DynField.link "User" "full_name" "Note" "owner" Option.none).applyJoin
        ((DynField.link "User" "full_name" "Note" "owner" Option.none).applyJoin qNote) =
      (DynField.link "User" "full_name" "Note" "owner" Option.none).applyJoin qNote ∧
    ((DynField.link "User" "full_name" "Note" "owner" Option.none).applyJoin
        ((DynField.link "User" "full_name" "Note" "owner" Option.none).applyJoin qNote)).joins.length =
      qNote.joins.length + 1 :=
  ⟨(c7_apply_join_idempotent (.link "User" "full_name" "Note" "owner" Option.none) qNote).2.1,
   (c7_apply_join_idempotent (.link "User" "full_name" "Note" "owner" Option.none) qNote).2.2
     (by decide)⟩

end FrappeQuery
